import Mathlib

set_option maxRecDepth 8000

/-!
Verification of the AC Brotherhood save-editor tools: a shallow embedding of
`cape_unlocker.py` (container parser, region scanner, patch orchestrator) and
`compact_format_parser.py` (tagged-entry stream decoder), together with proofs
about the testable properties of the two programs.

Byte buffers are modelled as `List Nat`; every integer read/write spells out
the little-endian arithmetic of the corresponding `struct.unpack`/`pack` call.
All recursion is structural (explicit fuel where the Python loop is unbounded),
so every definition evaluates by `decide`/`rfl`.
-/

/-- Byte access, as Python indexing into an in-range position of a byte
string; out-of-range reads are modelled as 0 (where a claim depends on an
access, the theorems carry the bound that makes the access in range). -/
def byteAt (l : List Nat) (i : Nat) : Nat := l.getD i 0

/-- Python byteSlice `l[i:i+n]`, clamping at the end of the buffer. -/
def byteSlice (l : List Nat) (i n : Nat) : List Nat := (l.drop i).take n

/-- Little-endian 16-bit read: `struct.unpack('<H', data[i:i+2])[0]`. -/
def readU16 (l : List Nat) (i : Nat) : Nat :=
  byteAt l i + byteAt l (i+1) * 256

/-- Little-endian 24-bit read: `struct.unpack('<I', data[i:i+3] + ZERO)[0]`
(the source pads the three bytes with one zero byte). -/
def readU24 (l : List Nat) (i : Nat) : Nat :=
  byteAt l i + byteAt l (i+1) * 256 + byteAt l (i+2) * 65536

/-- Little-endian 32-bit read: `struct.unpack('<I', data[i:i+4])[0]`. -/
def readU32 (l : List Nat) (i : Nat) : Nat :=
  byteAt l i + byteAt l (i+1) * 256 + byteAt l (i+2) * 65536 +
    byteAt l (i+3) * 16777216

/-- The three low bytes of `struct.pack('<I', n)`: `struct.pack('<I', n)[:3]`. -/
def u24le (n : Nat) : List Nat := [n % 256, n / 256 % 256, n / 65536 % 256]

/-- The four bytes of `struct.pack('<I', n)`. -/
def u32le (n : Nat) : List Nat :=
  [n % 256, n / 256 % 256, n / 65536 % 256, n / 16777216 % 256]

/-- Python bytearray byteSlice assignment `l[i:i+len(vs)] = vs` (step 1):
the bytes before `i`, then `vs`, then the bytes from `i + len(vs)` on. -/
def writeBytes (l : List Nat) (i : Nat) (vs : List Nat) : List Nat :=
  l.take i ++ vs ++ l.drop (i + vs.length)

/-- Python bytearray element assignment `l[i] = v` (the source only assigns
in range; `List.set` is the in-range behaviour). -/
def setByte (l : List Nat) (i v : Nat) : List Nat := l.set i v

/-! ### cape_unlocker.py — container parser and region scanner -/

/-- Cape 1 flag offset in decompressed Block 4 (`CAPE1_OFFSET = 0x50E0`). -/
def CAPE1OFF : Nat := 0x50E0

/-- Cape 2 flag offset in decompressed Block 4 (`CAPE2_OFFSET = 0x50F2`). -/
def CAPE2OFF : Nat := 0x50F2

/-- The region-header signature test of `parse_sav_blocks`:
`data[p] == 0x01 and data[p+4:p+8] == b'\x00\x00\x80\x00'`. -/
def regionSig (data : List Nat) (p : Nat) : Prop :=
  byteAt data p = 1 ∧ byteAt data (p+4) = 0 ∧ byteAt data (p+5) = 0 ∧
    byteAt data (p+6) = 128 ∧ byteAt data (p+7) = 0

instance regionSigDec (data : List Nat) (p : Nat) : Decidable (regionSig data p) := by
  unfold regionSig; exact inferInstance

/-- The inner `while` loop of the region scan: advance one byte at a time from
`pos` while `pos < len(data) - 8`; on a signature match whose declared 24-bit
size lies strictly between 0 and 50000, return `(pos, size)`.  The loop
advances `pos` by one per step, so `data.length + 1` fuel always outlasts it;
fuel exhaustion and buffer exhaustion both return `none` as the Python loop
falls through. -/
def findRegionAux (data : List Nat) : Nat → Nat → Option (Nat × Nat)
  | 0, _ => none
  | fuel+1, pos =>
    if pos + 8 < data.length then
      if regionSig data pos then
        if 0 < readU24 data (pos+1) ∧ readU24 data (pos+1) < 50000 then
          some (pos, readU24 data (pos+1))
        else findRegionAux data fuel (pos+1)
      else findRegionAux data fuel (pos+1)
    else none

/-- The outer `for region_num in range(count)` loop of the region scan: record
up to `count` regions, jumping past header (8) + declared payload + 5-byte
trailer after each match.  When the inner scan exhausts the buffer the Python
loop keeps iterating without ever appending again, which is the same as
stopping. -/
def scanRegionsAux (data : List Nat) : Nat → Nat → List (Nat × Nat)
  | 0, _ => []
  | n+1, pos =>
    match findRegionAux data (data.length + 1) pos with
    | none => []
    | some (off, size) => (off, size) :: scanRegionsAux data n (off + 8 + size + 5)

/-- The Block 3 region scan of `parse_sav_blocks`: find up to four region
headers starting at `start`. -/
def scanRegions (data : List Nat) (start : Nat) : List (Nat × Nat) :=
  scanRegionsAux data 4 start

/-- Failures of `parse_sav_blocks`: `headerTruncated` models the
`struct.error` Python raises when one of the two fixed-offset 4-byte size
reads runs past the end of the buffer; `regionScanFailed` models the
`ValueError("Could not parse Block 3 headers, found {n} regions")`. -/
inductive ParseErr where
  | headerTruncated : ParseErr
  | regionScanFailed (found : Nat) : ParseErr
deriving DecidableEq

/-- The five blocks and the region-4 offset returned by `parse_sav_blocks`. -/
structure SavBlocks where
  block1Compressed : List Nat
  block2Compressed : List Nat
  block3Raw : List Nat
  block4Compressed : List Nat
  block5Raw : List Nat
  region4Off : Nat
deriving DecidableEq

/-- Offset of Block 2's 44-byte header: `0x2C + block1_compressed_size`. -/
def block2HdrOff (data : List Nat) : Nat := 0x2C + readU32 data 0x20

/-- Offset of Block 3: Block 2's data offset plus its compressed size. -/
def block3Off (data : List Nat) : Nat :=
  block2HdrOff data + 44 + readU32 data (block2HdrOff data + 0x20)

/-- `parse_sav_blocks`: split a SAV file into its five blocks.  Blocks 1 and 2
come from fixed-offset headers, Block 3 is delimited by the region scan,
Block 4's length is Region 4's declared size, Block 5 is the rest. -/
def parseSavBlocks (data : List Nat) : Except ParseErr SavBlocks :=
  if 0x24 ≤ data.length then
    let size1 := readU32 data 0x20
    let b2hdr := block2HdrOff data
    if b2hdr + 0x24 ≤ data.length then
      let size2 := readU32 data (b2hdr + 0x20)
      let b3off := block3Off data
      let regions := scanRegions data b3off
      if 4 ≤ regions.length then
        let r4 := regions.getD 3 (0, 0)
        let b3end := r4.1 + 8 + 5
        let b3size := b3end - b3off
        let b4off := b3off + b3size
        Except.ok
          { block1Compressed := byteSlice data 0x2C size1
            block2Compressed := byteSlice data (b2hdr + 44) size2
            block3Raw := byteSlice data b3off b3size
            block4Compressed := byteSlice data b4off r4.2
            block5Raw := data.drop (b4off + r4.2)
            region4Off := r4.1 - b3off }
      else Except.error (ParseErr.regionScanFailed regions.length)
    else Except.error ParseErr.headerTruncated
  else Except.error ParseErr.headerTruncated

/-- Concatenation of the five returned block byte ranges, in order. -/
def fiveBlockConcat (bl : SavBlocks) : List Nat :=
  bl.block1Compressed ++ bl.block2Compressed ++ bl.block3Raw ++
    bl.block4Compressed ++ bl.block5Raw

/-- The patch of Block 3's Region 4 header in `unlock_capes` (lines 160-179):
rewrite the 3-byte size field at `r4+1` when it differs from the new
compressed length, then the 4-byte checksum at `r4+9` when it differs from the
new checksum. -/
def patchRegion4 (block3 : List Nat) (r4 newSize newChk : Nat) : List Nat :=
  let b3a := if readU24 block3 (r4 + 1) ≠ newSize then
      writeBytes block3 (r4 + 1) (u24le newSize)
    else block3
  if readU32 b3a (r4 + 9) ≠ newChk then
    writeBytes b3a (r4 + 9) (u32le newChk)
  else b3a

/-- The "remaining bytes after Block 2's header" total of `unlock_capes`
(lines 181-187): `44 + len(block2_recompressed) + len(block3_raw) +
len(block4_recompressed) + len(block5_raw)`. -/
def remainingAfterBlock2Header (b2len b3len b4len b5len : Nat) : Nat :=
  44 + b2len + b3len + b4len + b5len

/-- The Block 4 payload after the two cape-flag edits of `unlock_capes`:
`block4_data[CAPE1_OFFSET] = 0x01; block4_data[CAPE2_OFFSET] = 0x01`. -/
def patchedB4 (dec : List Nat → List Nat) (bl : SavBlocks) : List Nat :=
  setByte (setByte (dec bl.block4Compressed) CAPE1OFF 1) CAPE2OFF 1

/-- Block 4 recompressed after the cape-flag edits. -/
def newB4c (dec comp : List Nat → List Nat) (bl : SavBlocks) : List Nat :=
  comp (patchedB4 dec bl)

/-- Block 3 after `unlock_capes` patched Region 4's size and checksum. -/
def newB3 (dec comp : List Nat → List Nat) (chk : List Nat → Nat)
    (bl : SavBlocks) : List Nat :=
  patchRegion4 bl.block3Raw bl.region4Off (newB4c dec comp bl).length
    (chk (newB4c dec comp bl))

/-- The output file assembled on the success path of `unlock_capes`:
header(1) ++ payload(1) ++ header(2) ++ payload(2) ++ patched Block 3 ++
recompressed Block 4 ++ Block 5.  `hdrA`/`hdrB` are the external
`build_block1_header`/`build_block2_header` collaborators, `chk` is the
external checksum. -/
def firstRunOutput (dec comp : List Nat → List Nat) (chk : List Nat → Nat)
    (hdrA : List Nat → Nat → List Nat) (hdrB : List Nat → Nat → Nat → List Nat)
    (bl : SavBlocks) : List Nat :=
  let c1 := comp (dec bl.block1Compressed)
  let c2 := comp (dec bl.block2Compressed)
  let c4 := newB4c dec comp bl
  let b3p := newB3 dec comp chk bl
  let rem := remainingAfterBlock2Header c2.length b3p.length c4.length
    bl.block5Raw.length
  hdrA c1 (dec bl.block1Compressed).length ++ c1 ++
    hdrB c2 (dec bl.block2Compressed).length rem ++ c2 ++ b3p ++ c4 ++
    bl.block5Raw

/-- `unlock_capes` as a function from input bytes to either a parse error, or
`none` ("both capes already unlocked", no output written, original bytes
untouched), or `some out` (the assembled output file).  The Python code
decompresses Blocks 1 and 2 before checking the cape flags, but those calls do
not affect the early return, so the check is placed first here; the success
branch is exactly `firstRunOutput`. -/
def unlockCapes (dec comp : List Nat → List Nat) (chk : List Nat → Nat)
    (hdrA : List Nat → Nat → List Nat) (hdrB : List Nat → Nat → Nat → List Nat)
    (data : List Nat) : Except ParseErr (Option (List Nat)) :=
  match parseSavBlocks data with
  | Except.error e => Except.error e
  | Except.ok bl =>
    let b4d := dec bl.block4Compressed
    if byteAt b4d CAPE1OFF = 1 ∧ byteAt b4d CAPE2OFF = 1 then
      Except.ok none
    else
      Except.ok (some (firstRunOutput dec comp chk hdrA hdrB bl))

/-! ### compact_format_parser.py — tagged-entry stream decoder -/

/-- Per-decode statistics dictionary of `CompactFormatParser.__init__`.
The four unknown prefixes 0C18/1013/1830/140E have handlers but no counter in
the source, so no field here either. -/
structure Stats where
  tableRefs : Nat := 0
  ext1c04 : Nat := 0
  arr173c : Nat := 0
  val1500 : Nat := 0
  val1200 : Nat := 0
  fix0502 : Nat := 0
  var1405 : Nat := 0
  tref1006 : Nat := 0
  px1809 : Nat := 0
  px1907 : Nat := 0
  px1902 : Nat := 0
  px16e1 : Nat := 0
  unknown : Nat := 0
  m6D : Nat := 0
  mDB : Nat := 0
  mCD : Nat := 0
deriving DecidableEq

/-- The all-zero statistics a fresh `CompactFormatParser` instance starts
with. -/
def initStats : Stats := {}

/-- Pointwise sum of two statistics records. -/
def addStats (a b : Stats) : Stats where
  tableRefs := a.tableRefs + b.tableRefs
  ext1c04 := a.ext1c04 + b.ext1c04
  arr173c := a.arr173c + b.arr173c
  val1500 := a.val1500 + b.val1500
  val1200 := a.val1200 + b.val1200
  fix0502 := a.fix0502 + b.fix0502
  var1405 := a.var1405 + b.var1405
  tref1006 := a.tref1006 + b.tref1006
  px1809 := a.px1809 + b.px1809
  px1907 := a.px1907 + b.px1907
  px1902 := a.px1902 + b.px1902
  px16e1 := a.px16e1 + b.px16e1
  unknown := a.unknown + b.unknown
  m6D := a.m6D + b.m6D
  mDB := a.mDB + b.mDB
  mCD := a.mCD + b.mCD

/-- The `self.stats['unknown'] += 1` step of the main parse loop. -/
def bumpUnknown (s : Stats) : Stats := { s with unknown := s.unknown + 1 }

/-- Payload of an EXTENDED_1C entry: Python leaves `value` as `None`, a
1-byte int, a 2-byte int, or a byte slice depending on the subtype. -/
inductive ExtValue where
  | vnone : ExtValue
  | vbyte (v : Nat) : ExtValue
  | vword (v : Nat) : ExtValue
  | vraw (bs : List Nat) : ExtValue
deriving DecidableEq

/-- One decoded entry of the compact format, one constructor per record shape
of `_parse_entry`.  `word16` covers the eight 2-byte-value prefixes
(1809/1907/0C18/1013/1830/140E/1902/16E1), distinguished by their `pfx`
field exactly as the Python `ParsedEntry.prefix` field does. -/
inductive CEntry where
  | tableRef (offset tableId propId : Nat) : CEntry
  | ext1C (offset subtype : Nat) (value : ExtValue) (size : Nat) : CEntry
  | arrElem (offset etype : Nat) (value : Option Nat) (size : Nat) : CEntry
  | fixedVal (offset pfx value : Nat) : CEntry
  | varintVal (offset value size : Nat) : CEntry
  | typeRef (offset tableId extra : Nat) : CEntry
  | word16 (offset pfx value : Nat) : CEntry
  | marker (offset b : Nat) : CEntry
deriving DecidableEq

/-- `_parse_table_ref`: `08 03 [table_id] [prop_id]`, 4 bytes.  The derived
type-hash/type-name decoration looked up in `TABLE_ID_TO_TYPE` is a pure
read-only table lookup that affects no parsing decision or count, so it is
not re-modelled here. -/
def parseTableRef (s : Stats) (data : List Nat) (pos : Nat) :
    Option CEntry × Nat × Stats :=
  if pos + 4 > data.length then (none, 0, s)
  else
    (some (CEntry.tableRef pos (byteAt data (pos+2)) (byteAt data (pos+3))), 4,
      { s with tableRefs := s.tableRefs + 1 })

/-- The `while end < len(data) and end < pos + 8` scan of `_parse_extended_1c`
for subtypes 0x21/0x23/0x24/0x25: advance `e` until a known prefix byte or
marker byte, capped at `pos + 8`.  At most 5 steps from `pos + 3`, so fuel 5
is exact. -/
def extScanEnd (data : List Nat) (pos : Nat) : Nat → Nat → Nat
  | 0, e => e
  | fuel+1, e =>
    if e < data.length ∧ e < pos + 8 then
      if byteAt data e = 0x08 ∨ byteAt data e = 0x1C ∨ byteAt data e = 0x17 ∨
          byteAt data e = 0x15 ∨ byteAt data e = 0x12 ∨ byteAt data e = 0x14 ∨
          byteAt data e = 0x10 ∨ byteAt data e = 0x18 ∨ byteAt data e = 0x19 ∨
          byteAt data e = 0x0C then e
      else if byteAt data e = 0x6D ∨ byteAt data e = 0xDB ∨
          byteAt data e = 0xCD then e
      else extScanEnd data pos fuel (e+1)
    else e

/-- `_parse_extended_1c`: `1C 04 [subtype] [data...]`, 3 to 8 bytes. -/
def parseExt1C (s : Stats) (data : List Nat) (pos : Nat) :
    Option CEntry × Nat × Stats :=
  if pos + 3 > data.length then (none, 0, s)
  else
    let st := byteAt data (pos+2)
    let vc : ExtValue × Nat :=
      if st = 0x08 then
        if pos + 4 ≤ data.length then (ExtValue.vbyte (byteAt data (pos+3)), 4)
        else (ExtValue.vnone, 3)
      else if st = 0x0A ∨ st = 0x0B then
        if pos + 5 ≤ data.length then (ExtValue.vword (readU16 data (pos+3)), 5)
        else (ExtValue.vnone, 3)
      else if st = 0x24 ∨ st = 0x25 ∨ st = 0x21 ∨ st = 0x23 then
        let e := extScanEnd data pos 5 (pos+3)
        (ExtValue.vraw (byteSlice data (pos+3) (e - (pos+3))), e - pos)
      else
        if pos + 5 ≤ data.length then (ExtValue.vword (readU16 data (pos+3)), 5)
        else (ExtValue.vnone, 3)
    (some (CEntry.ext1C pos st vc.1 vc.2), vc.2,
      { s with ext1c04 := s.ext1c04 + 1 })

/-- `_parse_array_element`: `17 3C [type] [data...]`, 3 to 7 bytes.  In the
`type = 0x00` branch the source guards `pos + 6 <= len(data)` but unpacks
`data[pos+3:pos+7]`; at `len(data) = pos + 6` exactly, Python raises a
`struct.error` — modelled totally here, with the out-of-range high byte
read as 0 (no claim exercises that corner). -/
def parseArrayElem (s : Stats) (data : List Nat) (pos : Nat) :
    Option CEntry × Nat × Stats :=
  if pos + 3 > data.length then (none, 0, s)
  else
    let et := byteAt data (pos+2)
    let vc : Option Nat × Nat :=
      if et = 0x00 then
        if pos + 6 ≤ data.length then (some (readU32 data (pos+3)), 7)
        else (none, 3)
      else if et = 0x08 then
        if pos + 4 ≤ data.length then (some (byteAt data (pos+3)), 4)
        else (none, 3)
      else if et = 0x1A then
        if pos + 5 ≤ data.length then (some (readU16 data (pos+3)), 5)
        else (none, 3)
      else if et = 0x0A ∨ et = 0x0B ∨ et = 0x0E then
        if pos + 5 ≤ data.length then (some (readU16 data (pos+3)), 5)
        else (none, 3)
      else
        if pos + 5 ≤ data.length then (some (readU16 data (pos+3)), 5)
        else (none, 3)
    (some (CEntry.arrElem pos et vc.1 vc.2), vc.2,
      { s with arr173c := s.arr173c + 1 })

/-- `_parse_value_15`: `15 00 [4-byte LE value]`, 6 bytes. -/
def parseValue15 (s : Stats) (data : List Nat) (pos : Nat) :
    Option CEntry × Nat × Stats :=
  if pos + 6 > data.length then (none, 0, s)
  else
    (some (CEntry.fixedVal pos 0x1500 (readU32 data (pos+2))), 6,
      { s with val1500 := s.val1500 + 1 })

/-- `_parse_value_12`: `12 00 [4-byte LE value]`, 6 bytes. -/
def parseValue12 (s : Stats) (data : List Nat) (pos : Nat) :
    Option CEntry × Nat × Stats :=
  if pos + 6 > data.length then (none, 0, s)
  else
    (some (CEntry.fixedVal pos 0x1200 (readU32 data (pos+2))), 6,
      { s with val1200 := s.val1200 + 1 })

/-- `_parse_fixed32`: `05 02 [4-byte LE value]`, 6 bytes. -/
def parseFixed32 (s : Stats) (data : List Nat) (pos : Nat) :
    Option CEntry × Nat × Stats :=
  if pos + 6 > data.length then (none, 0, s)
  else
    (some (CEntry.fixedVal pos 0x0502 (readU32 data (pos+2))), 6,
      { s with fix0502 := s.fix0502 + 1 })

/-- `_read_varint`: protobuf-style base-128 little-endian, continuation bit in
the high bit.  Each 7-bit chunk lands in fresh higher bits, so the source's
`result |= (b & 0x7F) << shift` is the bitwise-or written here.  The loop body
runs at most 6 times (the `consumed > 5` test sits after the increment), so
fuel 6 is exact. -/
def readVarintAux (data : List Nat) (pos : Nat) :
    Nat → Nat → Nat → Nat → Nat × Nat
  | 0, result, _, consumed => (result, consumed)
  | fuel+1, result, shift, consumed =>
    if pos + consumed < data.length then
      let b := byteAt data (pos + consumed)
      let result2 := result ||| ((b &&& 0x7F) <<< shift)
      if b &&& 0x80 = 0 then (result2, consumed + 1)
      else if consumed + 1 > 5 then (result2, consumed + 1)
      else readVarintAux data pos fuel result2 (shift + 7) (consumed + 1)
    else (result, consumed)

/-- `_read_varint(data, pos)`: returns `(value, bytes consumed)`. -/
def readVarint (data : List Nat) (pos : Nat) : Nat × Nat :=
  readVarintAux data pos 6 0 0 0

/-- `_parse_varint`: `14 05 [varint...]`, 2 + varint length bytes. -/
def parseVarintEntry (s : Stats) (data : List Nat) (pos : Nat) :
    Option CEntry × Nat × Stats :=
  if pos + 3 > data.length then (none, 0, s)
  else
    let vc := readVarint data (pos + 2)
    (some (CEntry.varintVal pos vc.1 (2 + vc.2)), 2 + vc.2,
      { s with var1405 := s.var1405 + 1 })

/-- `_parse_type_ref`: `10 06 [table_id] [extra]`, 4 bytes. -/
def parseTypeRef (s : Stats) (data : List Nat) (pos : Nat) :
    Option CEntry × Nat × Stats :=
  if pos + 4 > data.length then (none, 0, s)
  else
    (some (CEntry.typeRef pos (byteAt data (pos+2)) (byteAt data (pos+3))), 4,
      { s with tref1006 := s.tref1006 + 1 })

/-- `_parse_prefix_1809`: `18 09 [2-byte LE value]`, 4 bytes. -/
def parsePx1809 (s : Stats) (data : List Nat) (pos : Nat) :
    Option CEntry × Nat × Stats :=
  if pos + 4 > data.length then (none, 0, s)
  else
    (some (CEntry.word16 pos 0x1809 (readU16 data (pos+2))), 4,
      { s with px1809 := s.px1809 + 1 })

/-- `_parse_prefix_1907`: `19 07 [2-byte LE value]`, 4 bytes. -/
def parsePx1907 (s : Stats) (data : List Nat) (pos : Nat) :
    Option CEntry × Nat × Stats :=
  if pos + 4 > data.length then (none, 0, s)
  else
    (some (CEntry.word16 pos 0x1907 (readU16 data (pos+2))), 4,
      { s with px1907 := s.px1907 + 1 })

/-- `_parse_prefix_0c18`: `0C 18 [2-byte LE value]`, 4 bytes, no counter. -/
def parsePx0C18 (s : Stats) (data : List Nat) (pos : Nat) :
    Option CEntry × Nat × Stats :=
  if pos + 4 > data.length then (none, 0, s)
  else (some (CEntry.word16 pos 0x0C18 (readU16 data (pos+2))), 4, s)

/-- `_parse_prefix_1013`: `10 13 [2-byte LE value]`, 4 bytes, no counter. -/
def parsePx1013 (s : Stats) (data : List Nat) (pos : Nat) :
    Option CEntry × Nat × Stats :=
  if pos + 4 > data.length then (none, 0, s)
  else (some (CEntry.word16 pos 0x1013 (readU16 data (pos+2))), 4, s)

/-- `_parse_prefix_1830`: `18 30 [2-byte LE value]`, 4 bytes, no counter. -/
def parsePx1830 (s : Stats) (data : List Nat) (pos : Nat) :
    Option CEntry × Nat × Stats :=
  if pos + 4 > data.length then (none, 0, s)
  else (some (CEntry.word16 pos 0x1830 (readU16 data (pos+2))), 4, s)

/-- `_parse_prefix_140e`: `14 0E [2-byte LE value]`, 4 bytes, no counter. -/
def parsePx140E (s : Stats) (data : List Nat) (pos : Nat) :
    Option CEntry × Nat × Stats :=
  if pos + 4 > data.length then (none, 0, s)
  else (some (CEntry.word16 pos 0x140E (readU16 data (pos+2))), 4, s)

/-- `_parse_prefix_1902`: `19 02 [2-byte LE value]`, 4 bytes. -/
def parsePx1902 (s : Stats) (data : List Nat) (pos : Nat) :
    Option CEntry × Nat × Stats :=
  if pos + 4 > data.length then (none, 0, s)
  else
    (some (CEntry.word16 pos 0x1902 (readU16 data (pos+2))), 4,
      { s with px1902 := s.px1902 + 1 })

/-- `_parse_prefix_16e1`: `16 E1 [2-byte LE value]`, 4 bytes. -/
def parsePx16E1 (s : Stats) (data : List Nat) (pos : Nat) :
    Option CEntry × Nat × Stats :=
  if pos + 4 > data.length then (none, 0, s)
  else
    (some (CEntry.word16 pos 0x16E1 (readU16 data (pos+2))), 4,
      { s with px16e1 := s.px16e1 + 1 })

/-- `_parse_entry`: dispatch on the 2-byte prefix at `pos`, then the
single-byte markers 0x6D/0xDB/0xCD, else `(None, 1)`. -/
def parseEntry (s : Stats) (data : List Nat) (pos : Nat) :
    Option CEntry × Nat × Stats :=
  if data.length ≤ pos + 1 then (none, 0, s)
  else
    let b0 := byteAt data pos
    let b1 := byteAt data (pos+1)
    if b0 = 0x08 ∧ b1 = 0x03 then parseTableRef s data pos
    else if b0 = 0x1C ∧ b1 = 0x04 then parseExt1C s data pos
    else if b0 = 0x17 ∧ b1 = 0x3C then parseArrayElem s data pos
    else if b0 = 0x15 ∧ b1 = 0x00 then parseValue15 s data pos
    else if b0 = 0x12 ∧ b1 = 0x00 then parseValue12 s data pos
    else if b0 = 0x05 ∧ b1 = 0x02 then parseFixed32 s data pos
    else if b0 = 0x14 ∧ b1 = 0x05 then parseVarintEntry s data pos
    else if b0 = 0x10 ∧ b1 = 0x06 then parseTypeRef s data pos
    else if b0 = 0x18 ∧ b1 = 0x09 then parsePx1809 s data pos
    else if b0 = 0x19 ∧ b1 = 0x07 then parsePx1907 s data pos
    else if b0 = 0x0C ∧ b1 = 0x18 then parsePx0C18 s data pos
    else if b0 = 0x10 ∧ b1 = 0x13 then parsePx1013 s data pos
    else if b0 = 0x18 ∧ b1 = 0x30 then parsePx1830 s data pos
    else if b0 = 0x14 ∧ b1 = 0x0E then parsePx140E s data pos
    else if b0 = 0x19 ∧ b1 = 0x02 then parsePx1902 s data pos
    else if b0 = 0x16 ∧ b1 = 0xE1 then parsePx16E1 s data pos
    else if b0 = 0x6D then
      (some (CEntry.marker pos 0x6D), 1, { s with m6D := s.m6D + 1 })
    else if b0 = 0xDB then
      (some (CEntry.marker pos 0xDB), 1, { s with mDB := s.mDB + 1 })
    else if b0 = 0xCD then
      (some (CEntry.marker pos 0xCD), 1, { s with mCD := s.mCD + 1 })
    else (none, 1, s)

/-- The main decode loop of `CompactFormatParser.parse`:
`while pos < len(data) - 1`, append the entry and advance by the consumed
count, or advance one byte and count it unclassified.  Every produced entry
consumes at least one byte, so `data.length + 1` fuel always outlasts the
loop; both exits return the accumulated entries and statistics. -/
def parseLoop (data : List Nat) :
    Nat → Nat → Stats → List CEntry → List CEntry × Stats
  | 0, _, s, acc => (acc.reverse, s)
  | fuel+1, pos, s, acc =>
    if pos + 1 < data.length then
      match parseEntry s data pos with
      | (some e, consumed, s2) => parseLoop data fuel (pos + consumed) s2 (e :: acc)
      | (none, _, s2) => parseLoop data fuel (pos + 1) (bumpUnknown s2) acc
    else (acc.reverse, s)

/-- `_find_first_table_ref` body: scan `i` from 8 while `i < len(data) - 1`
for the byte pair `08 03`; fall back to 8. -/
def findTableRefFrom (data : List Nat) : Nat → Nat → Nat
  | 0, _ => 8
  | fuel+1, i =>
    if i + 1 < data.length then
      if byteAt data i = 0x08 ∧ byteAt data (i+1) = 0x03 then i
      else findTableRefFrom data fuel (i+1)
    else 8

/-- `_find_first_table_ref(data)`. -/
def findFirstTableRef (data : List Nat) : Nat :=
  findTableRefFrom data (data.length + 1) 8

/-- The 8-byte `CompactHeader`: version byte, 24-bit LE data size, 32-bit LE
flags, and the raw bytes. -/
structure CompactHeader where
  version : Nat
  dataSize : Nat
  flags : Nat
  rawBytes : List Nat
deriving DecidableEq

/-- `CompactHeader.parse(data, off)` (out-of-range byte reads modelled as 0;
Python would raise on a buffer shorter than 8 bytes). -/
def parseCompactHeader (data : List Nat) (off : Nat) : CompactHeader :=
  let raw := byteSlice data off 8
  { version := byteAt raw 0
    dataSize := byteAt raw 1 + byteAt raw 2 * 256 + byteAt raw 3 * 65536
    flags := readU32 raw 4
    rawBytes := raw }

/-- The decoded block returned by `CompactFormatParser.parse`: header,
preamble and entry list.  The `table_refs`/`extended_values`/... buckets the
source appends afterwards are a pure regrouping of `entries`, and `raw_data`
is the input itself; neither is re-modelled. -/
structure CompactBlock where
  header : CompactHeader
  preamble : List Nat
  entries : List CEntry
deriving DecidableEq

/-- `CompactFormatParser.parse(data)` with the instance statistics threaded
explicitly: the incoming `s` is `self.stats` at call time (a fresh instance
passes `initStats`), and the returned statistics are `self.stats` after the
call — the source mutates the dictionary and never resets it. -/
def CFParse (s : Stats) (data : List Nat) : CompactBlock × Stats :=
  let pe := findFirstTableRef data
  let es := parseLoop data (data.length + 1) pe s []
  ({ header := parseCompactHeader data 0
     preamble := byteSlice data 8 (pe - 8)
     entries := es.1 }, es.2)

/-- A byte pair that `_parse_entry` dispatches on. -/
def knownPair (b0 b1 : Nat) : Prop :=
  (b0 = 0x08 ∧ b1 = 0x03) ∨ (b0 = 0x1C ∧ b1 = 0x04) ∨ (b0 = 0x17 ∧ b1 = 0x3C) ∨
  (b0 = 0x15 ∧ b1 = 0x00) ∨ (b0 = 0x12 ∧ b1 = 0x00) ∨ (b0 = 0x05 ∧ b1 = 0x02) ∨
  (b0 = 0x14 ∧ b1 = 0x05) ∨ (b0 = 0x10 ∧ b1 = 0x06) ∨ (b0 = 0x18 ∧ b1 = 0x09) ∨
  (b0 = 0x19 ∧ b1 = 0x07) ∨ (b0 = 0x0C ∧ b1 = 0x18) ∨ (b0 = 0x10 ∧ b1 = 0x13) ∨
  (b0 = 0x18 ∧ b1 = 0x30) ∨ (b0 = 0x14 ∧ b1 = 0x0E) ∨ (b0 = 0x19 ∧ b1 = 0x02) ∨
  (b0 = 0x16 ∧ b1 = 0xE1)

instance knownPairDec (b0 b1 : Nat) : Decidable (knownPair b0 b1) := by
  unfold knownPair; exact inferInstance

/-- One of the three single-byte markers. -/
def markerByte (b : Nat) : Prop := b = 0x6D ∨ b = 0xDB ∨ b = 0xCD

instance markerByteDec (b : Nat) : Decidable (markerByte b) := by
  unfold markerByte; exact inferInstance

/-- The byte at `pos` starts no known 2-byte prefix and is no marker. -/
def unclassifiedAt (data : List Nat) (pos : Nat) : Prop :=
  ¬ knownPair (byteAt data pos) (byteAt data (pos+1)) ∧
    ¬ markerByte (byteAt data pos)

instance unclassifiedAtDec (data : List Nat) (pos : Nat) :
    Decidable (unclassifiedAt data pos) := by
  unfold unclassifiedAt; exact inferInstance

/-! ### Concrete test vectors -/

/-- A minimal well-formed 154-byte container: 44-byte Block 1 header
(compressed size 4 at offset 0x20), 4-byte Block 1 payload, 44-byte Block 2
header (compressed size 4), 4-byte Block 2 payload, Block 3 with four regions
(sizes 1, 1, 1, 2) starting at offset 96, the 2-byte Block 4 payload, and a
1-byte Block 5. -/
def exSav : List Nat :=
  (List.replicate 32 0 ++ [4, 0, 0, 0] ++ List.replicate 8 0) ++
  [0xB1, 0xB1, 0xB1, 0xB1] ++
  (List.replicate 32 0 ++ [4, 0, 0, 0] ++ List.replicate 8 0) ++
  [0xB2, 0xB2, 0xB2, 0xB2] ++
  ([1, 1, 0, 0, 0, 0, 128, 0] ++ [0x21] ++ List.replicate 5 0) ++
  ([1, 1, 0, 0, 0, 0, 128, 0] ++ [0x22] ++ List.replicate 5 0) ++
  ([1, 1, 0, 0, 0, 0, 128, 0] ++ [0x23] ++ List.replicate 5 0) ++
  ([1, 2, 0, 0, 0, 0, 128, 0] ++ [0, 0xAA, 0xAA, 0xAA, 0xAA]) ++
  [9, 9] ++ [0x55]

/-- The block split `parse_sav_blocks` produces on `exSav`. -/
def exBlocks : SavBlocks where
  block1Compressed := [0xB1, 0xB1, 0xB1, 0xB1]
  block2Compressed := [0xB2, 0xB2, 0xB2, 0xB2]
  block3Raw := byteSlice exSav 96 55
  block4Compressed := [9, 9]
  block5Raw := [0x55]
  region4Off := 42

/-- The 19-byte synthetic payload of the spec's concrete scenario:
8-byte header, TABLE_REF (table 5, property 2), VALUE_15 with bytes
AA BB CC DD, and a trailing TRUE marker. -/
def c2Data : List Nat :=
  [0x01, 0x00, 0x80, 0x00, 0x00, 0x00, 0x80, 0x00,
   0x08, 0x03, 0x05, 0x02,
   0x15, 0x00, 0xAA, 0xBB, 0xCC, 0xDD,
   0x6D]

/-- A synthetic Block-3 style buffer: four well-formed size-1 region headers
at offsets 1, 17, 31 and 46, separated by 0xFF filler that matches no
signature. -/
def c5Data : List Nat :=
  [0xFF] ++
  ([1, 1, 0, 0, 0, 0, 128, 0] ++ [0x22] ++ List.replicate 5 0x33) ++
  [0xFF, 0xFF] ++
  ([1, 1, 0, 0, 0, 0, 128, 0] ++ [0x22] ++ List.replicate 5 0x33) ++
  ([1, 1, 0, 0, 0, 0, 128, 0] ++ [0x22] ++ List.replicate 5 0x33) ++
  [0xFF] ++
  ([1, 1, 0, 0, 0, 0, 128, 0] ++ [0x22] ++ List.replicate 5 0x33)

/-- 80 zero bytes: both fixed-offset size reads are in range (both sizes
read 0), but the region scan starts at offset 88, past the end, and finds
no region. -/
def c6Data : List Nat := List.replicate 80 0

/-- A compact block whose data region consists of two unclassified bytes. -/
def c8Data : List Nat := [1, 0, 0, 0, 0, 0, 128, 0, 0xFF, 0xFF, 0xFF]

/-- A VARINT record whose varint part is six continuation bytes. -/
def c9Data : List Nat :=
  [0x14, 0x05, 0x80, 0x80, 0x80, 0x80, 0x80, 0x80, 0x80]

/-- Three bytes that match no prefix and no marker. -/
def c10Data : List Nat := [9, 9, 9]

/-- Stand-in decompressed Block 4 for the idempotence witness: 20723 zero
bytes (so both cape flags read 0). -/
def big0 : List Nat := List.replicate 20723 0

/-- `big0` with the two cape flags at 0x50E0 = 20704 and 0x50F2 = 20722 set
to 1. -/
def bigP : List Nat :=
  List.replicate 20704 0 ++ 1 :: (List.replicate 17 0 ++ [1])

/-- Toy decompressor for the idempotence witness: maps the toy compressed
form `[7]` to the patched payload, Block 4's stored payload `[9, 9]` to the
all-zero payload, and anything else to itself. -/
def myDec (x : List Nat) : List Nat :=
  if x = [7] then bigP else if x = [9, 9] then big0 else x

/-- Toy compressor inverse to `myDec` on the payloads the witness uses. -/
def myComp (x : List Nat) : List Nat := if x = bigP then [7] else x

/-- Toy checksum. -/
def myChk (_ : List Nat) : Nat := 0

/-- Toy Block 1 header builder honouring the 44-byte layout with the
compressed size at offset 0x20. -/
def myHdrA (c : List Nat) (_ : Nat) : List Nat :=
  List.replicate 32 0 ++ u32le c.length ++ List.replicate 8 0

/-- Toy Block 2 header builder with the same layout. -/
def myHdrB (c : List Nat) (_ _ : Nat) : List Nat :=
  List.replicate 32 0 ++ u32le c.length ++ List.replicate 8 0

/-! ### Byte-buffer lemmas -/

@[simp]
theorem byteAt_cons_zero (a : Nat) (t : List Nat) : byteAt (a :: t) 0 = a := rfl

@[simp]
theorem byteAt_cons_succ (a : Nat) (t : List Nat) (n : Nat) :
    byteAt (a :: t) (n+1) = byteAt t n := rfl

@[simp]
theorem byteAt_nil (i : Nat) : byteAt ([] : List Nat) i = 0 := by
  cases i <;> rfl

theorem byteAt_append_add (pre x : List Nat) (k : Nat) :
    byteAt (pre ++ x) (pre.length + k) = byteAt x k := by
  induction pre with
  | nil => simp
  | cons a l ih =>
    rw [List.cons_append, show (a :: l).length + k = (l.length + k) + 1 by
      simp [List.length_cons]; omega, byteAt_cons_succ, ih]

theorem byteAt_append_lt (pre x : List Nat) (k : Nat) (h : k < pre.length) :
    byteAt (pre ++ x) k = byteAt pre k := by
  induction pre generalizing k with
  | nil => simp at h
  | cons a l ih =>
    cases k with
    | zero => rfl
    | succ n =>
      rw [List.cons_append, byteAt_cons_succ, byteAt_cons_succ]
      exact ih n (by simp at h; omega)

theorem byteAt_replicate (n a i : Nat) :
    byteAt (List.replicate n a) i = if i < n then a else 0 := by
  induction n generalizing i with
  | zero => simp
  | succ m ih =>
    cases i with
    | zero => rw [if_pos (Nat.succ_pos m), List.replicate_succ]; rfl
    | succ j =>
      rw [List.replicate_succ, byteAt_cons_succ, ih]
      by_cases h : j < m
      · rw [if_pos h, if_pos (by omega)]
      · rw [if_neg h, if_neg (by omega)]

theorem byteAt_take (l : List Nat) (i j : Nat) (h : j < i) :
    byteAt (l.take i) j = byteAt l j := by
  induction l generalizing i j with
  | nil => simp
  | cons a t ih =>
    cases i with
    | zero => omega
    | succ m =>
      cases j with
      | zero => rfl
      | succ n =>
        rw [List.take_succ_cons, byteAt_cons_succ, byteAt_cons_succ]
        exact ih m n (by omega)

theorem byteAt_drop (l : List Nat) (m k : Nat) :
    byteAt (l.drop m) k = byteAt l (m + k) := by
  induction l generalizing m with
  | nil => simp
  | cons a t ih =>
    cases m with
    | zero => simp
    | succ n =>
      rw [List.drop_succ_cons, ih, show n + 1 + k = (n + k) + 1 by omega,
        byteAt_cons_succ]

theorem drop_append_add (pre x : List Nat) (k : Nat) :
    (pre ++ x).drop (pre.length + k) = x.drop k := by
  induction pre with
  | nil => simp
  | cons a l ih =>
    rw [List.cons_append, show (a :: l).length + k = (l.length + k) + 1 by
      simp [List.length_cons]; omega, List.drop_succ_cons, ih]

theorem byteSlice_append_add (pre x : List Nat) (k n : Nat) :
    byteSlice (pre ++ x) (pre.length + k) n = byteSlice x k n := by
  simp [byteSlice, drop_append_add]

theorem byteSlice_zero (l : List Nat) (n : Nat) : byteSlice l 0 n = l.take n := by
  simp [byteSlice]

theorem byteSlice_at_append (pre x : List Nat) (n : Nat) :
    byteSlice (pre ++ x) pre.length n = x.take n := by
  have h := byteSlice_append_add pre x 0 n
  rw [Nat.add_zero] at h
  rw [h, byteSlice_zero]

theorem byteSlice_chunk (l : List Nat) (i m n : Nat) :
    byteSlice l i m ++ byteSlice l (i + m) n = byteSlice l i (m + n) := by
  have h : l.drop (i + m) = (l.drop i).drop m := by
    rw [List.drop_drop, Nat.add_comm]
  rw [byteSlice, byteSlice, byteSlice, h, List.take_add]

theorem length_byteSlice (l : List Nat) (i n : Nat) :
    (byteSlice l i n).length = min n (l.length - i) := by
  simp [byteSlice]

theorem readU16_append_add (pre x : List Nat) (k : Nat) :
    readU16 (pre ++ x) (pre.length + k) = readU16 x k := by
  unfold readU16
  rw [show pre.length + k + 1 = pre.length + (k+1) by omega,
    byteAt_append_add, byteAt_append_add]

theorem readU24_append_add (pre x : List Nat) (k : Nat) :
    readU24 (pre ++ x) (pre.length + k) = readU24 x k := by
  unfold readU24
  rw [show pre.length + k + 1 = pre.length + (k+1) by omega,
    show pre.length + k + 2 = pre.length + (k+2) by omega,
    byteAt_append_add, byteAt_append_add, byteAt_append_add]

theorem readU32_append_add (pre x : List Nat) (k : Nat) :
    readU32 (pre ++ x) (pre.length + k) = readU32 x k := by
  unfold readU32
  rw [show pre.length + k + 1 = pre.length + (k+1) by omega,
    show pre.length + k + 2 = pre.length + (k+2) by omega,
    show pre.length + k + 3 = pre.length + (k+3) by omega,
    byteAt_append_add, byteAt_append_add, byteAt_append_add, byteAt_append_add]

theorem readU32_append_lt (pre x : List Nat) (k : Nat) (h : k + 4 ≤ pre.length) :
    readU32 (pre ++ x) k = readU32 pre k := by
  unfold readU32
  rw [byteAt_append_lt _ _ _ (by omega), byteAt_append_lt _ _ _ (by omega),
    byteAt_append_lt _ _ _ (by omega), byteAt_append_lt _ _ _ (by omega)]

theorem length_writeBytes (l : List Nat) (i : Nat) (vs : List Nat)
    (h : i + vs.length ≤ l.length) :
    (writeBytes l i vs).length = l.length := by
  simp [writeBytes]
  omega

theorem byteAt_writeBytes_inside (l : List Nat) (i : Nat) (vs : List Nat)
    (k : Nat) (hk : k < vs.length) (hi : i ≤ l.length) :
    byteAt (writeBytes l i vs) (i + k) = byteAt vs k := by
  unfold writeBytes
  have hl : (l.take i).length = i := by simp; omega
  rw [List.append_assoc, show i + k = (l.take i).length + k by rw [hl],
    byteAt_append_add, byteAt_append_lt _ _ _ hk]

theorem byteAt_writeBytes_before (l : List Nat) (i : Nat) (vs : List Nat)
    (j : Nat) (hj : j < i) (hi : i ≤ l.length) :
    byteAt (writeBytes l i vs) j = byteAt l j := by
  unfold writeBytes
  have hl : (l.take i).length = i := by simp; omega
  rw [List.append_assoc, byteAt_append_lt _ _ _ (by rw [hl]; exact hj),
    byteAt_take _ _ _ hj]

theorem byteAt_writeBytes_after (l : List Nat) (i : Nat) (vs : List Nat)
    (j : Nat) (hj : i + vs.length ≤ j) (hi : i ≤ l.length) :
    byteAt (writeBytes l i vs) j = byteAt l j := by
  unfold writeBytes
  have hl : (l.take i ++ vs).length = i + vs.length := by simp; omega
  have h2 := byteAt_append_add (l.take i ++ vs) (l.drop (i + vs.length))
    (j - (i + vs.length))
  rw [hl, show i + vs.length + (j - (i + vs.length)) = j by omega] at h2
  rw [h2, byteAt_drop, show i + vs.length + (j - (i + vs.length)) = j by omega]

theorem byteAt_setByte_self (l : List Nat) (i v : Nat) (h : i < l.length) :
    byteAt (setByte l i v) i = v := by
  unfold setByte
  induction l generalizing i with
  | nil => simp at h
  | cons a t ih =>
    cases i with
    | zero => rfl
    | succ n =>
      rw [List.set_cons_succ, byteAt_cons_succ]
      exact ih n (by simp at h; omega)

theorem byteAt_setByte_ne (l : List Nat) (i v j : Nat) (h : i ≠ j) :
    byteAt (setByte l i v) j = byteAt l j := by
  unfold setByte
  induction l generalizing i j with
  | nil => simp
  | cons a t ih =>
    cases i with
    | zero =>
      cases j with
      | zero => omega
      | succ m => rfl
    | succ n =>
      cases j with
      | zero => rfl
      | succ m =>
        rw [List.set_cons_succ, byteAt_cons_succ, byteAt_cons_succ]
        exact ih n m (by omega)

theorem length_setByte (l : List Nat) (i v : Nat) :
    (setByte l i v).length = l.length := by
  simp [setByte]

theorem setByte_append_add (pre x : List Nat) (k v : Nat) :
    setByte (pre ++ x) (pre.length + k) v = pre ++ setByte x k v := by
  unfold setByte
  induction pre with
  | nil => simp
  | cons a l ih =>
    rw [List.cons_append, show (a :: l).length + k = (l.length + k) + 1 by
      simp [List.length_cons]; omega, List.set_cons_succ, ih, List.cons_append]

theorem setByte_replicate (n i a v : Nat) (h : i < n) :
    setByte (List.replicate n a) i v =
      List.replicate i a ++ v :: List.replicate (n - (i + 1)) a := by
  unfold setByte
  induction i generalizing n with
  | zero =>
    cases n with
    | zero => omega
    | succ m => simp [List.replicate_succ]
  | succ j ih =>
    cases n with
    | zero => omega
    | succ m =>
      have he : m + 1 - (j + 1 + 1) = m - (j + 1) := by omega
      rw [he, List.replicate_succ, List.set_cons_succ]
      have hj := ih m (by omega)
      unfold setByte at hj
      rw [hj, List.replicate_succ, List.cons_append]

/-! ### Region-scanner lemmas -/

theorem findRegionAux_finds (data : List Nat) (h : Nat)
    (hsig : regionSig data h) (hlo : 0 < readU24 data (h+1))
    (hhi : readU24 data (h+1) < 50000) (hin : h + 8 < data.length) :
    ∀ fuel pos, pos ≤ h → h - pos < fuel →
      (∀ p, pos ≤ p → p < h → ¬ regionSig data p) →
      findRegionAux data fuel pos = some (h, readU24 data (h+1)) := by
  intro fuel
  induction fuel with
  | zero => intro pos hple hfuel _; omega
  | succ f ih =>
    intro pos hple hfuel hfill
    rcases Nat.eq_or_lt_of_le hple with heq | hlt
    · subst heq
      rw [findRegionAux, if_pos hin, if_pos hsig, if_pos ⟨hlo, hhi⟩]
    · rw [findRegionAux, if_pos (by omega), if_neg (hfill pos (Nat.le_refl pos) hlt)]
      exact ih (pos+1) (by omega) (by omega) (fun p hp1 hp2 => hfill p (by omega) hp2)

theorem findRegionAux_some (data : List Nat) :
    ∀ fuel pos off size, findRegionAux data fuel pos = some (off, size) →
      pos ≤ off ∧ off + 8 < data.length := by
  intro fuel
  induction fuel with
  | zero => intro pos off size hf; simp [findRegionAux] at hf
  | succ f ih =>
    intro pos off size hf
    rw [findRegionAux] at hf
    by_cases hg : pos + 8 < data.length
    · rw [if_pos hg] at hf
      by_cases hs : regionSig data pos
      · rw [if_pos hs] at hf
        by_cases hz : 0 < readU24 data (pos+1) ∧ readU24 data (pos+1) < 50000
        · rw [if_pos hz] at hf
          simp at hf
          omega
        · rw [if_neg hz] at hf
          have hr := ih (pos+1) off size hf
          exact ⟨by omega, hr.2⟩
      · rw [if_neg hs] at hf
        have hr := ih (pos+1) off size hf
        exact ⟨by omega, hr.2⟩
    · rw [if_neg hg] at hf
      simp at hf

theorem scanRegionsAux_succ_some (data : List Nat) (n pos off size : Nat)
    (hf : findRegionAux data (data.length + 1) pos = some (off, size)) :
    scanRegionsAux data (n+1) pos =
      (off, size) :: scanRegionsAux data n (off + 8 + size + 5) := by
  rw [scanRegionsAux, hf]

theorem scanRegionsAux_bounds (data : List Nat) :
    ∀ n pos p, p ∈ scanRegionsAux data n pos →
      pos ≤ p.1 ∧ p.1 + 8 < data.length := by
  intro n
  induction n with
  | zero => intro pos p hp; simp [scanRegionsAux] at hp
  | succ m ih =>
    intro pos p hp
    rw [scanRegionsAux] at hp
    cases hf : findRegionAux data (data.length + 1) pos with
    | none => rw [hf] at hp; simp at hp
    | some r =>
      rw [hf] at hp
      have hr := findRegionAux_some data (data.length + 1) pos r.1 r.2 (by
        rw [hf])
      simp at hp
      rcases hp with heq | hmem
      · rw [heq]
        exact hr
      · have := ih (r.1 + 8 + r.2 + 5) p hmem
        exact ⟨by omega, this.2⟩

/-- C5: for every buffer with 4 well-formed region headers (signature byte
0x01, suffix 00 00 80 00, 24-bit LE size strictly between 0 and 50000, each
followed by its size payload and 5-byte trailer) separated and surrounded by
filler in which no position matches the signature, the region scan records
exactly those 4 (offset, size) pairs in increasing offset order, independent
of the filler lengths; after each match the cursor jumps past the 8-byte
header, the payload, and the 5-byte trailer. -/
theorem c5_scan_finds_four_regions (data : List Nat)
    (start h1 s1 h2 s2 h3 s3 h4 s4 : Nat)
    (o0 : start ≤ h1) (o1 : h1 + 8 + s1 + 5 ≤ h2) (o2 : h2 + 8 + s2 + 5 ≤ h3)
    (o3 : h3 + 8 + s3 + 5 ≤ h4) (hin : h4 + 8 < data.length)
    (g1 : regionSig data h1) (e1 : readU24 data (h1+1) = s1)
    (z1 : 0 < s1) (w1 : s1 < 50000)
    (g2 : regionSig data h2) (e2 : readU24 data (h2+1) = s2)
    (z2 : 0 < s2) (w2 : s2 < 50000)
    (g3 : regionSig data h3) (e3 : readU24 data (h3+1) = s3)
    (z3 : 0 < s3) (w3 : s3 < 50000)
    (g4 : regionSig data h4) (e4 : readU24 data (h4+1) = s4)
    (z4 : 0 < s4) (w4 : s4 < 50000)
    (f0 : ∀ p < h1, start ≤ p → ¬ regionSig data p)
    (f1 : ∀ p < h2, h1 + 8 + s1 + 5 ≤ p → ¬ regionSig data p)
    (f2 : ∀ p < h3, h2 + 8 + s2 + 5 ≤ p → ¬ regionSig data p)
    (f3 : ∀ p < h4, h3 + 8 + s3 + 5 ≤ p → ¬ regionSig data p) :
    scanRegions data start = [(h1, s1), (h2, s2), (h3, s3), (h4, s4)] := by
  have q1 : findRegionAux data (data.length + 1) start = some (h1, s1) := by
    rw [← e1]
    exact findRegionAux_finds data h1 g1 (by rw [e1]; exact z1)
      (by rw [e1]; exact w1) (by omega) (data.length + 1) start o0 (by omega)
      (fun p hp1 hp2 => f0 p hp2 hp1)
  have q2 : findRegionAux data (data.length + 1) (h1 + 8 + s1 + 5) =
      some (h2, s2) := by
    rw [← e2]
    exact findRegionAux_finds data h2 g2 (by rw [e2]; exact z2)
      (by rw [e2]; exact w2) (by omega) (data.length + 1) _ o1 (by omega)
      (fun p hp1 hp2 => f1 p hp2 hp1)
  have q3 : findRegionAux data (data.length + 1) (h2 + 8 + s2 + 5) =
      some (h3, s3) := by
    rw [← e3]
    exact findRegionAux_finds data h3 g3 (by rw [e3]; exact z3)
      (by rw [e3]; exact w3) (by omega) (data.length + 1) _ o2 (by omega)
      (fun p hp1 hp2 => f2 p hp2 hp1)
  have q4 : findRegionAux data (data.length + 1) (h3 + 8 + s3 + 5) =
      some (h4, s4) := by
    rw [← e4]
    exact findRegionAux_finds data h4 g4 (by rw [e4]; exact z4)
      (by rw [e4]; exact w4) (by omega) (data.length + 1) _ o3 (by omega)
      (fun p hp1 hp2 => f3 p hp2 hp1)
  rw [scanRegions, scanRegionsAux_succ_some data 3 start h1 s1 q1,
    scanRegionsAux_succ_some data 2 _ h2 s2 q2,
    scanRegionsAux_succ_some data 1 _ h3 s3 q3,
    scanRegionsAux_succ_some data 0 _ h4 s4 q4, scanRegionsAux]

/-- Witness for C5 on the concrete buffer `c5Data`. -/
theorem c5_scan_finds_four_regions_witness :
    scanRegions c5Data 0 = [(1, 1), (17, 1), (31, 1), (46, 1)] :=
  c5_scan_finds_four_regions c5Data 0 1 1 17 1 31 1 46 1
    (by decide) (by decide) (by decide) (by decide) (by decide)
    (by decide) (by decide) (by decide) (by decide)
    (by decide) (by decide) (by decide) (by decide)
    (by decide) (by decide) (by decide) (by decide)
    (by decide) (by decide) (by decide) (by decide)
    (by decide) (by decide) (by decide) (by decide)

/-- C6: whenever the two fixed-offset size reads are in range (otherwise the
Python code dies earlier, in `struct.unpack`), a region scan that finds fewer
than four regions makes `parse_sav_blocks` fail with the error carrying the
count found and no partial result, and a scan that finds four never raises
that error. -/
theorem c6_region_scan_failure (data : List Nat)
    (hA : 0x24 ≤ data.length) (hB : block2HdrOff data + 0x24 ≤ data.length) :
    ((scanRegions data (block3Off data)).length < 4 →
      parseSavBlocks data = Except.error
        (ParseErr.regionScanFailed (scanRegions data (block3Off data)).length)) ∧
    ((scanRegions data (block3Off data)).length = 4 →
      ∀ n, parseSavBlocks data ≠ Except.error (ParseErr.regionScanFailed n)) := by
  constructor
  · intro hlt
    simp only [parseSavBlocks]
    rw [if_pos hA, if_pos hB, if_neg (by omega)]
  · intro he4 n
    simp only [parseSavBlocks]
    rw [if_pos hA, if_pos hB, if_pos (by omega)]
    intro hcontra
    simp at hcontra

/-- Witness for C6: an 80-byte all-zero file reaches the region scan, which
finds 0 regions, and the parse fails with that count. -/
theorem c6_region_scan_failure_witness :
    parseSavBlocks c6Data = Except.error (ParseErr.regionScanFailed 0) := by
  have h := (c6_region_scan_failure c6Data (by decide) (by decide)).1 (by decide)
  have hz : (scanRegions c6Data (block3Off c6Data)).length = 0 := by decide
  rw [hz] at h
  exact h

/-- C1 counterexample: `exSav` is a valid container (the parse succeeds), yet
concatenating the five returned block ranges does not reproduce the input —
the two 44-byte block headers are in no returned range. -/
theorem c1_five_block_concat_counterexample :
    (parseSavBlocks exSav).map fiveBlockConcat =
      Except.ok (fiveBlockConcat exBlocks) ∧ fiveBlockConcat exBlocks ≠ exSav := by
  constructor
  · rfl
  · decide

/-- C1 amended: for every container accepted by `parse_sav_blocks`,
concatenating Block 1's 44-byte header, the five returned block ranges, and
Block 2's 44-byte header in file order — header(1), block1, header(2),
block2, block3, block4, block5 — reproduces the input exactly, with no gaps
and no overlaps. -/
theorem c1_concat_with_headers (data : List Nat) (bl : SavBlocks)
    (hp : parseSavBlocks data = Except.ok bl) :
    byteSlice data 0 44 ++ bl.block1Compressed ++
      byteSlice data (44 + bl.block1Compressed.length) 44 ++
      bl.block2Compressed ++ bl.block3Raw ++ bl.block4Compressed ++
      bl.block5Raw = data := by
  simp only [parseSavBlocks] at hp
  by_cases hA : 0x24 ≤ data.length
  · by_cases hB : block2HdrOff data + 0x24 ≤ data.length
    · by_cases h4 : 4 ≤ (scanRegions data (block3Off data)).length
      · rw [if_pos hA, if_pos hB, if_pos h4] at hp
        injection hp with hbl
        subst hbl
        dsimp only
        set r41 := ((scanRegions data (block3Off data)).getD 3 (0, 0)).1
          with hr41
        set r42 := ((scanRegions data (block3Off data)).getD 3 (0, 0)).2
          with hr42
        set s1 := readU32 data 0x20 with hs1
        set A := block2HdrOff data with hAdef
        set s2 := readU32 data (A + 0x20) with hs2
        have F1 : A = 44 + s1 := by simp only [hAdef, block2HdrOff, hs1]
        have hlen2 : (byteSlice data 44 s1).length = s1 := by
          rw [length_byteSlice]; omega
        rw [hlen2]
        have m1 : byteSlice data 0 44 ++ byteSlice data 44 s1 =
            byteSlice data 0 A := by
          have h := byteSlice_chunk data 0 44 s1
          rw [Nat.zero_add] at h
          rw [h, F1]
        have m2 : byteSlice data 0 A ++ byteSlice data (44 + s1) 44 =
            byteSlice data 0 (A + 44) := by
          rw [F1]
          have h := byteSlice_chunk data 0 (44 + s1) 44
          rw [Nat.zero_add] at h
          exact h
        have m3 : byteSlice data 0 (A + 44) ++ byteSlice data (A + 44) s2 =
            byteSlice data 0 (A + 44 + s2) := by
          have h := byteSlice_chunk data 0 (A + 44) s2
          rw [Nat.zero_add] at h
          exact h
        have F3 : block3Off data = A + 44 + s2 := by
          simp only [block3Off, ← hAdef, ← hs2]
        have m4 : byteSlice data 0 (A + 44 + s2) ++
            byteSlice data (A + 44 + s2) (r41 + 8 + 5 - (A + 44 + s2)) =
            byteSlice data 0 (A + 44 + s2 + (r41 + 8 + 5 - (A + 44 + s2))) := by
          have h := byteSlice_chunk data 0 (A + 44 + s2)
            (r41 + 8 + 5 - (A + 44 + s2))
          rw [Nat.zero_add] at h
          exact h
        have m5 : byteSlice data 0 (A + 44 + s2 + (r41 + 8 + 5 - (A + 44 + s2))) ++
            byteSlice data (A + 44 + s2 + (r41 + 8 + 5 - (A + 44 + s2))) r42 =
            byteSlice data 0 (A + 44 + s2 + (r41 + 8 + 5 - (A + 44 + s2)) + r42) := by
          have h := byteSlice_chunk data 0
            (A + 44 + s2 + (r41 + 8 + 5 - (A + 44 + s2))) r42
          rw [Nat.zero_add] at h
          exact h
        rw [m1, m2, m3, F3, m4, m5, byteSlice_zero, List.take_append_drop]
      · rw [if_pos hA, if_pos hB, if_neg h4] at hp
        simp at hp
    · rw [if_pos hA, if_neg hB] at hp
      simp at hp
  · rw [if_neg hA] at hp
    simp at hp

/-- Witness for the amended C1 on the concrete container `exSav`. -/
theorem c1_concat_with_headers_witness :
    byteSlice exSav 0 44 ++ exBlocks.block1Compressed ++
      byteSlice exSav (44 + exBlocks.block1Compressed.length) 44 ++
      exBlocks.block2Compressed ++ exBlocks.block3Raw ++
      exBlocks.block4Compressed ++ exBlocks.block5Raw = exSav :=
  c1_concat_with_headers exSav exBlocks (by rfl)

/-! ### Write/read round-trips for the Region 4 patch -/

theorem readU24_writeBytes (l : List Nat) (i n : Nat) (h : i + 3 ≤ l.length) :
    readU24 (writeBytes l i (u24le n)) i = n % 16777216 := by
  have h0 : byteAt (writeBytes l i (u24le n)) (i + 0) = byteAt (u24le n) 0 :=
    byteAt_writeBytes_inside l i (u24le n) 0 (by simp [u24le]) (by omega)
  have h1 : byteAt (writeBytes l i (u24le n)) (i + 1) = byteAt (u24le n) 1 :=
    byteAt_writeBytes_inside l i (u24le n) 1 (by simp [u24le]) (by omega)
  have h2 : byteAt (writeBytes l i (u24le n)) (i + 2) = byteAt (u24le n) 2 :=
    byteAt_writeBytes_inside l i (u24le n) 2 (by simp [u24le]) (by omega)
  rw [Nat.add_zero] at h0
  have e0 : byteAt (u24le n) 0 = n % 256 := rfl
  have e1 : byteAt (u24le n) 1 = n / 256 % 256 := rfl
  have e2 : byteAt (u24le n) 2 = n / 65536 % 256 := rfl
  rw [readU24, h0, h1, h2, e0, e1, e2]
  omega

theorem readU32_writeBytes (l : List Nat) (i n : Nat) (h : i + 4 ≤ l.length) :
    readU32 (writeBytes l i (u32le n)) i = n % 4294967296 := by
  have h0 : byteAt (writeBytes l i (u32le n)) (i + 0) = byteAt (u32le n) 0 :=
    byteAt_writeBytes_inside l i (u32le n) 0 (by simp [u32le]) (by omega)
  have h1 : byteAt (writeBytes l i (u32le n)) (i + 1) = byteAt (u32le n) 1 :=
    byteAt_writeBytes_inside l i (u32le n) 1 (by simp [u32le]) (by omega)
  have h2 : byteAt (writeBytes l i (u32le n)) (i + 2) = byteAt (u32le n) 2 :=
    byteAt_writeBytes_inside l i (u32le n) 2 (by simp [u32le]) (by omega)
  have h3 : byteAt (writeBytes l i (u32le n)) (i + 3) = byteAt (u32le n) 3 :=
    byteAt_writeBytes_inside l i (u32le n) 3 (by simp [u32le]) (by omega)
  rw [Nat.add_zero] at h0
  have e0 : byteAt (u32le n) 0 = n % 256 := rfl
  have e1 : byteAt (u32le n) 1 = n / 256 % 256 := rfl
  have e2 : byteAt (u32le n) 2 = n / 65536 % 256 := rfl
  have e3 : byteAt (u32le n) 3 = n / 16777216 % 256 := rfl
  rw [readU32, h0, h1, h2, h3, e0, e1, e2, e3]
  omega

/-- C3: when Block 4's recompressed length differs from the declared size,
the patched Block 3 carries the new length in the 3-byte little-endian size
field at region-4 offset + 1 and the new checksum in the 4-byte little-endian
field at region-4 offset + 9 (the two fields `unlock_capes` rewrites). -/
theorem c3_patch_size_checksum (block3 : List Nat) (r4 newSize newChk : Nat)
    (hbound : r4 + 13 ≤ block3.length)
    (hdiff : readU24 block3 (r4 + 1) ≠ newSize)
    (hsz : newSize < 16777216) (hck : newChk < 4294967296) :
    readU24 (patchRegion4 block3 r4 newSize newChk) (r4 + 1) = newSize ∧
    readU32 (patchRegion4 block3 r4 newSize newChk) (r4 + 9) = newChk := by
  simp only [patchRegion4]
  rw [if_pos hdiff]
  set b3a := writeBytes block3 (r4 + 1) (u24le newSize) with hb3a
  have hlen : b3a.length = block3.length := by
    rw [hb3a]
    exact length_writeBytes _ _ _ (by simp [u24le]; omega)
  have hsize : readU24 b3a (r4 + 1) = newSize := by
    rw [hb3a, readU24_writeBytes _ _ _ (by omega)]
    omega
  by_cases hc : readU32 b3a (r4 + 9) ≠ newChk
  · rw [if_pos hc]
    constructor
    · have e1 : readU24 (writeBytes b3a (r4 + 9) (u32le newChk)) (r4 + 1) =
          readU24 b3a (r4 + 1) := by
        rw [readU24, readU24,
          byteAt_writeBytes_before b3a (r4 + 9) (u32le newChk) (r4 + 1)
            (by omega) (by rw [hlen]; omega),
          byteAt_writeBytes_before b3a (r4 + 9) (u32le newChk) (r4 + 1 + 1)
            (by omega) (by rw [hlen]; omega),
          byteAt_writeBytes_before b3a (r4 + 9) (u32le newChk) (r4 + 1 + 2)
            (by omega) (by rw [hlen]; omega)]
      rw [e1]
      exact hsize
    · rw [readU32_writeBytes _ _ _ (by rw [hlen]; omega)]
      omega
  · rw [if_neg hc]
    push_neg at hc
    exact ⟨hsize, hc⟩

/-- Witness for C3 on a 20-byte zero block with region 4 at offset 0. -/
theorem c3_patch_size_checksum_witness :
    readU24 (patchRegion4 (List.replicate 20 0) 0 5 7) (0 + 1) = 5 ∧
    readU32 (patchRegion4 (List.replicate 20 0) 0 5 7) (0 + 9) = 7 :=
  c3_patch_size_checksum (List.replicate 20 0) 0 5 7 (by decide) (by decide)
    (by decide) (by decide)

/-- C4 counterexample: the "remaining bytes after Block 2's header" total the
code computes is not the bare sum of the four block lengths — at lengths
1, 1, 1, 1 the code computes 48, not 4. -/
theorem c4_remaining_counterexample :
    remainingAfterBlock2Header 1 1 1 1 ≠ 1 + 1 + 1 + 1 := by
  decide

/-- C4 amended: the total passed to the Block 2 header builder equals 44 plus
the sum of Block 2's new compressed length, Block 3's length, Block 4's new
compressed length and Block 5's length — the extra 44 accounts for one more
44-byte header in the remaining bytes. -/
theorem c4_remaining_includes_header (b2len b3len b4len b5len : Nat) :
    remainingAfterBlock2Header b2len b3len b4len b5len =
      44 + (b2len + b3len + b4len + b5len) := by
  rw [remainingAfterBlock2Header]
  omega

/-- C2 counterexample: the 19-byte scenario payload decodes to 2 entries, not
3 — the main loop stops at `length - 1` and never reaches the trailing TRUE
marker byte, which sits at the final position. -/
theorem c2_three_entries_counterexample :
    (CFParse initStats c2Data).1.entries.length ≠ 3 := by
  decide

/-- C2 amended: the payload decodes to exactly 2 entries — the TABLE_REF with
table_id 0x05 / property_id 0x02 at offset 8 and the VALUE_15 with value
0xDDCCBBAA at offset 12 — with the unclassified count equal to zero; the
trailing boolean-true marker is not decoded because the loop stops at
`length - 1`. -/
theorem c2_payload_decodes_two_entries :
    (CFParse initStats c2Data).1.entries =
      [CEntry.tableRef 8 5 2, CEntry.fixedVal 12 0x1500 0xDDCCBBAA] ∧
    (CFParse initStats c2Data).2.unknown = 0 := by
  constructor <;> decide

/-- C9: at the failing input — the VARINT prefix 14 05 followed by six
continuation bytes 0x80 — the varint portion consumes 6 bytes, not at most 5:
the `consumed > 5` cap only fires after a sixth byte has been read, so the
full entry consumes 2 + 6 bytes. -/
theorem c9_varint_consumes_six :
    (readVarint c9Data 2).2 = 6 ∧ (parseEntry initStats c9Data 0).2.1 = 2 + 6 ∧
      ¬ (readVarint c9Data 2).2 ≤ 5 := by
  refine ⟨by decide, by decide, by decide⟩

/-- At an unclassified position, `_parse_entry` returns `(None, 1)` and
leaves the statistics untouched. -/
theorem parseEntry_unclassified (s : Stats) (data : List Nat) (pos : Nat)
    (hpos : pos + 1 < data.length) (hun : unclassifiedAt data pos) :
    parseEntry s data pos = (none, 1, s) := by
  obtain ⟨hk, hm⟩ := hun
  simp only [knownPair, not_or] at hk
  obtain ⟨k1, k2, k3, k4, k5, k6, k7, k8, k9, k10, k11, k12, k13, k14, k15, k16⟩ := hk
  simp only [markerByte, not_or] at hm
  obtain ⟨m1, m2, m3⟩ := hm
  simp only [parseEntry]
  rw [if_neg (by omega), if_neg k1, if_neg k2, if_neg k3, if_neg k4,
    if_neg k5, if_neg k6, if_neg k7, if_neg k8, if_neg k9, if_neg k10,
    if_neg k11, if_neg k12, if_neg k13, if_neg k14, if_neg k15, if_neg k16,
    if_neg m1, if_neg m2, if_neg m3]

/-- C10: a byte matching no known 2-byte prefix and no single-byte marker
never makes the decode fail: the loop bumps the unclassified count, advances
the cursor by exactly one byte, and the rest of the decode is exactly a
decode started at the next position with the same accumulator. -/
theorem c10_unclassified_skip (data : List Nat) (fuel pos : Nat) (s : Stats)
    (acc : List CEntry) (hpos : pos + 1 < data.length)
    (hun : unclassifiedAt data pos) :
    parseLoop data (fuel + 1) pos s acc =
      parseLoop data fuel (pos + 1) (bumpUnknown s) acc := by
  rw [parseLoop, if_pos hpos, parseEntry_unclassified s data pos hpos hun]

/-- Witness for C10 on three bytes that match nothing. -/
theorem c10_unclassified_skip_witness :
    parseLoop c10Data 2 0 initStats [] =
      parseLoop c10Data 1 1 (bumpUnknown initStats) [] :=
  c10_unclassified_skip c10Data 1 0 initStats [] (by decide) (by decide)

/-! ### Statistics accumulation -/

theorem addStats_init_right (s : Stats) : addStats s initStats = s := by
  cases s
  simp [addStats, initStats]

theorem addStats_assoc (a b c : Stats) :
    addStats (addStats a b) c = addStats a (addStats b c) := by
  cases a; cases b; cases c
  simp [addStats, Nat.add_assoc]

theorem bumpUnknown_addStats (s t : Stats) :
    bumpUnknown (addStats s t) = addStats s (bumpUnknown t) := by
  cases s; cases t
  simp [addStats, bumpUnknown, Nat.add_assoc]

theorem parseTableRef_addStats (s : Stats) (data : List Nat) (pos : Nat) :
    parseTableRef s data pos =
      ((parseTableRef initStats data pos).1,
        (parseTableRef initStats data pos).2.1,
        addStats s (parseTableRef initStats data pos).2.2) := by
  simp only [parseTableRef]
  split_ifs <;> (cases s; simp [addStats, initStats])

theorem parseExt1C_addStats (s : Stats) (data : List Nat) (pos : Nat) :
    parseExt1C s data pos =
      ((parseExt1C initStats data pos).1,
        (parseExt1C initStats data pos).2.1,
        addStats s (parseExt1C initStats data pos).2.2) := by
  simp only [parseExt1C]
  split_ifs <;> (cases s; simp [addStats, initStats])

theorem parseArrayElem_addStats (s : Stats) (data : List Nat) (pos : Nat) :
    parseArrayElem s data pos =
      ((parseArrayElem initStats data pos).1,
        (parseArrayElem initStats data pos).2.1,
        addStats s (parseArrayElem initStats data pos).2.2) := by
  simp only [parseArrayElem]
  split_ifs <;> (cases s; simp [addStats, initStats])

theorem parseValue15_addStats (s : Stats) (data : List Nat) (pos : Nat) :
    parseValue15 s data pos =
      ((parseValue15 initStats data pos).1,
        (parseValue15 initStats data pos).2.1,
        addStats s (parseValue15 initStats data pos).2.2) := by
  simp only [parseValue15]
  split_ifs <;> (cases s; simp [addStats, initStats])

theorem parseValue12_addStats (s : Stats) (data : List Nat) (pos : Nat) :
    parseValue12 s data pos =
      ((parseValue12 initStats data pos).1,
        (parseValue12 initStats data pos).2.1,
        addStats s (parseValue12 initStats data pos).2.2) := by
  simp only [parseValue12]
  split_ifs <;> (cases s; simp [addStats, initStats])

theorem parseFixed32_addStats (s : Stats) (data : List Nat) (pos : Nat) :
    parseFixed32 s data pos =
      ((parseFixed32 initStats data pos).1,
        (parseFixed32 initStats data pos).2.1,
        addStats s (parseFixed32 initStats data pos).2.2) := by
  simp only [parseFixed32]
  split_ifs <;> (cases s; simp [addStats, initStats])

theorem parseVarintEntry_addStats (s : Stats) (data : List Nat) (pos : Nat) :
    parseVarintEntry s data pos =
      ((parseVarintEntry initStats data pos).1,
        (parseVarintEntry initStats data pos).2.1,
        addStats s (parseVarintEntry initStats data pos).2.2) := by
  simp only [parseVarintEntry]
  split_ifs <;> (cases s; simp [addStats, initStats])

theorem parseTypeRef_addStats (s : Stats) (data : List Nat) (pos : Nat) :
    parseTypeRef s data pos =
      ((parseTypeRef initStats data pos).1,
        (parseTypeRef initStats data pos).2.1,
        addStats s (parseTypeRef initStats data pos).2.2) := by
  simp only [parseTypeRef]
  split_ifs <;> (cases s; simp [addStats, initStats])

theorem parsePx1809_addStats (s : Stats) (data : List Nat) (pos : Nat) :
    parsePx1809 s data pos =
      ((parsePx1809 initStats data pos).1, (parsePx1809 initStats data pos).2.1,
        addStats s (parsePx1809 initStats data pos).2.2) := by
  simp only [parsePx1809]
  split_ifs <;> (cases s; simp [addStats, initStats])

theorem parsePx1907_addStats (s : Stats) (data : List Nat) (pos : Nat) :
    parsePx1907 s data pos =
      ((parsePx1907 initStats data pos).1, (parsePx1907 initStats data pos).2.1,
        addStats s (parsePx1907 initStats data pos).2.2) := by
  simp only [parsePx1907]
  split_ifs <;> (cases s; simp [addStats, initStats])

theorem parsePx0C18_addStats (s : Stats) (data : List Nat) (pos : Nat) :
    parsePx0C18 s data pos =
      ((parsePx0C18 initStats data pos).1, (parsePx0C18 initStats data pos).2.1,
        addStats s (parsePx0C18 initStats data pos).2.2) := by
  simp only [parsePx0C18]
  split_ifs <;> (cases s; simp [addStats, initStats])

theorem parsePx1013_addStats (s : Stats) (data : List Nat) (pos : Nat) :
    parsePx1013 s data pos =
      ((parsePx1013 initStats data pos).1, (parsePx1013 initStats data pos).2.1,
        addStats s (parsePx1013 initStats data pos).2.2) := by
  simp only [parsePx1013]
  split_ifs <;> (cases s; simp [addStats, initStats])

theorem parsePx1830_addStats (s : Stats) (data : List Nat) (pos : Nat) :
    parsePx1830 s data pos =
      ((parsePx1830 initStats data pos).1, (parsePx1830 initStats data pos).2.1,
        addStats s (parsePx1830 initStats data pos).2.2) := by
  simp only [parsePx1830]
  split_ifs <;> (cases s; simp [addStats, initStats])

theorem parsePx140E_addStats (s : Stats) (data : List Nat) (pos : Nat) :
    parsePx140E s data pos =
      ((parsePx140E initStats data pos).1, (parsePx140E initStats data pos).2.1,
        addStats s (parsePx140E initStats data pos).2.2) := by
  simp only [parsePx140E]
  split_ifs <;> (cases s; simp [addStats, initStats])

theorem parsePx1902_addStats (s : Stats) (data : List Nat) (pos : Nat) :
    parsePx1902 s data pos =
      ((parsePx1902 initStats data pos).1, (parsePx1902 initStats data pos).2.1,
        addStats s (parsePx1902 initStats data pos).2.2) := by
  simp only [parsePx1902]
  split_ifs <;> (cases s; simp [addStats, initStats])

theorem parsePx16E1_addStats (s : Stats) (data : List Nat) (pos : Nat) :
    parsePx16E1 s data pos =
      ((parsePx16E1 initStats data pos).1, (parsePx16E1 initStats data pos).2.1,
        addStats s (parsePx16E1 initStats data pos).2.2) := by
  simp only [parsePx16E1]
  split_ifs <;> (cases s; simp [addStats, initStats])

/-- Each `_parse_entry` outcome is independent of the statistics carried in:
the entry and consumed count are those of a fresh-statistics run, and the
outgoing statistics are the incoming ones plus the fresh-statistics delta. -/
theorem parseEntry_addStats (s : Stats) (data : List Nat) (pos : Nat) :
    parseEntry s data pos =
      ((parseEntry initStats data pos).1, (parseEntry initStats data pos).2.1,
        addStats s (parseEntry initStats data pos).2.2) := by
  simp only [parseEntry]
  by_cases hg : data.length ≤ pos + 1
  · simp only [if_pos hg]
    simp [addStats_init_right]
  · simp only [if_neg hg]
    by_cases h1 : byteAt data pos = 0x08 ∧ byteAt data (pos+1) = 0x03
    · simp only [if_pos h1]
      exact parseTableRef_addStats s data pos
    · simp only [if_neg h1]
      by_cases h2 : byteAt data pos = 0x1C ∧ byteAt data (pos+1) = 0x04
      · simp only [if_pos h2]
        exact parseExt1C_addStats s data pos
      · simp only [if_neg h2]
        by_cases h3 : byteAt data pos = 0x17 ∧ byteAt data (pos+1) = 0x3C
        · simp only [if_pos h3]
          exact parseArrayElem_addStats s data pos
        · simp only [if_neg h3]
          by_cases h4 : byteAt data pos = 0x15 ∧ byteAt data (pos+1) = 0x00
          · simp only [if_pos h4]
            exact parseValue15_addStats s data pos
          · simp only [if_neg h4]
            by_cases h5 : byteAt data pos = 0x12 ∧ byteAt data (pos+1) = 0x00
            · simp only [if_pos h5]
              exact parseValue12_addStats s data pos
            · simp only [if_neg h5]
              by_cases h6 : byteAt data pos = 0x05 ∧ byteAt data (pos+1) = 0x02
              · simp only [if_pos h6]
                exact parseFixed32_addStats s data pos
              · simp only [if_neg h6]
                by_cases h7 : byteAt data pos = 0x14 ∧ byteAt data (pos+1) = 0x05
                · simp only [if_pos h7]
                  exact parseVarintEntry_addStats s data pos
                · simp only [if_neg h7]
                  by_cases h8 : byteAt data pos = 0x10 ∧ byteAt data (pos+1) = 0x06
                  · simp only [if_pos h8]
                    exact parseTypeRef_addStats s data pos
                  · simp only [if_neg h8]
                    by_cases h9 : byteAt data pos = 0x18 ∧ byteAt data (pos+1) = 0x09
                    · simp only [if_pos h9]
                      exact parsePx1809_addStats s data pos
                    · simp only [if_neg h9]
                      by_cases h10 : byteAt data pos = 0x19 ∧ byteAt data (pos+1) = 0x07
                      · simp only [if_pos h10]
                        exact parsePx1907_addStats s data pos
                      · simp only [if_neg h10]
                        by_cases h11 : byteAt data pos = 0x0C ∧ byteAt data (pos+1) = 0x18
                        · simp only [if_pos h11]
                          exact parsePx0C18_addStats s data pos
                        · simp only [if_neg h11]
                          by_cases h12 : byteAt data pos = 0x10 ∧ byteAt data (pos+1) = 0x13
                          · simp only [if_pos h12]
                            exact parsePx1013_addStats s data pos
                          · simp only [if_neg h12]
                            by_cases h13 : byteAt data pos = 0x18 ∧ byteAt data (pos+1) = 0x30
                            · simp only [if_pos h13]
                              exact parsePx1830_addStats s data pos
                            · simp only [if_neg h13]
                              by_cases h14 : byteAt data pos = 0x14 ∧ byteAt data (pos+1) = 0x0E
                              · simp only [if_pos h14]
                                exact parsePx140E_addStats s data pos
                              · simp only [if_neg h14]
                                by_cases h15 : byteAt data pos = 0x19 ∧ byteAt data (pos+1) = 0x02
                                · simp only [if_pos h15]
                                  exact parsePx1902_addStats s data pos
                                · simp only [if_neg h15]
                                  by_cases h16 : byteAt data pos = 0x16 ∧ byteAt data (pos+1) = 0xE1
                                  · simp only [if_pos h16]
                                    exact parsePx16E1_addStats s data pos
                                  · simp only [if_neg h16]
                                    by_cases hm1 : byteAt data pos = 0x6D
                                    · simp only [if_pos hm1]
                                      cases s
                                      simp [addStats, initStats]
                                    · simp only [if_neg hm1]
                                      by_cases hm2 : byteAt data pos = 0xDB
                                      · simp only [if_pos hm2]
                                        cases s
                                        simp [addStats, initStats]
                                      · simp only [if_neg hm2]
                                        by_cases hm3 : byteAt data pos = 0xCD
                                        · simp only [if_pos hm3]
                                          cases s
                                          simp [addStats, initStats]
                                        · simp only [if_neg hm3]
                                          simp [addStats_init_right]

/-- The main decode loop is independent of carried-in statistics: the entry
list equals a fresh-statistics run's, and the final statistics are the
incoming ones plus the fresh run's. -/
theorem parseLoop_addStats (data : List Nat) :
    ∀ fuel pos (s : Stats) acc,
      parseLoop data fuel pos s acc =
        ((parseLoop data fuel pos initStats acc).1,
          addStats s (parseLoop data fuel pos initStats acc).2) := by
  intro fuel
  induction fuel with
  | zero =>
    intro pos s acc
    dsimp only [parseLoop]
    rw [addStats_init_right]
  | succ f ih =>
    intro pos s acc
    rw [parseLoop, parseLoop]
    by_cases hp : pos + 1 < data.length
    · rw [if_pos hp, if_pos hp, parseEntry_addStats s data pos]
      rcases hq : parseEntry initStats data pos with ⟨oe, c, s2⟩
      cases oe with
      | some e =>
        dsimp only
        rw [ih (pos + c) (addStats s s2) (e :: acc), ih (pos + c) s2 (e :: acc),
          addStats_assoc]
      | none =>
        dsimp only
        rw [bumpUnknown_addStats, ih (pos + 1) (addStats s (bumpUnknown s2)) acc,
          ih (pos + 1) (bumpUnknown s2) acc, addStats_assoc]
    · rw [if_neg hp, if_neg hp]
      dsimp only
      rw [addStats_init_right]

/-- C8 counterexample: reusing one decoder instance, the statistics persist
between calls — after decoding `c8Data` twice on the same instance the
counts differ from the first run's counts (the unclassified count doubles). -/
theorem c8_stats_persist_counterexample :
    (CFParse (CFParse initStats c8Data).2 c8Data).2 ≠
      (CFParse initStats c8Data).2 := by
  decide

/-- C8 amended: decoding is deterministic and the entry sequence is
independent of the statistics carried in the decoder instance, but per-decode
statistics are scoped to the instance, not the call: a `parse` call adds its
fresh-run counts onto whatever the instance has accumulated, so two runs give
identical entries and — when each starts from freshly initialized statistics —
identical counts, while back-to-back calls on one instance accumulate. -/
theorem c8_entries_deterministic_stats_additive (s : Stats) (data : List Nat) :
    (CFParse s data).1 = (CFParse initStats data).1 ∧
    (CFParse s data).2 = addStats s (CFParse initStats data).2 := by
  have h := parseLoop_addStats data (data.length + 1) (findFirstTableRef data) s []
  simp only [CFParse]
  rw [h]
  exact ⟨rfl, rfl⟩

/-! ### Parsing a rebuilt container -/

theorem getD_three (a b c d e : Nat × Nat) : [a, b, c, d].getD 3 e = d := rfl

/-- A container assembled as header(1) ++ payload(1) ++ header(2) ++
payload(2) ++ block3 ++ block4 ++ block5, with 44-byte headers carrying the
payload lengths at offset 0x20 and a region scan that finds its fourth region
13 bytes before the end of block3 declaring block4's length, parses back into
exactly those five blocks. -/
theorem parse_of_assembled (hA c1 hB c2 b3 c4 b5 : List Nat)
    (r1 r2 r3 : Nat × Nat)
    (lA : hA.length = 44) (sA : readU32 hA 0x20 = c1.length)
    (lB : hB.length = 44) (sB : readU32 hB 0x20 = c2.length)
    (hb3 : 13 ≤ b3.length)
    (hscan : scanRegions (hA ++ (c1 ++ (hB ++ (c2 ++ (b3 ++ (c4 ++ b5)))))) (88 + c1.length + c2.length) =
      [r1, r2, r3,
        (88 + c1.length + c2.length + (b3.length - 13), c4.length)]) :
    parseSavBlocks (hA ++ (c1 ++ (hB ++ (c2 ++ (b3 ++ (c4 ++ b5)))))) = Except.ok
      { block1Compressed := c1, block2Compressed := c2, block3Raw := b3,
        block4Compressed := c4, block5Raw := b5,
        region4Off := b3.length - 13 } := by
  have hlout : (hA ++ (c1 ++ (hB ++ (c2 ++ (b3 ++ (c4 ++ b5)))))).length =
      88 + c1.length + c2.length + b3.length + c4.length + b5.length := by
    simp only [List.length_append, lA, lB]
    omega
  have E1 : readU32 (hA ++ (c1 ++ (hB ++ (c2 ++ (b3 ++ (c4 ++ b5)))))) 0x20 = c1.length := by
    rw [readU32_append_lt hA _ 0x20 (by omega), sA]
  have E2 : block2HdrOff (hA ++ (c1 ++ (hB ++ (c2 ++ (b3 ++ (c4 ++ b5)))))) = 44 + c1.length := by
    rw [block2HdrOff, E1]
  have E3 : readU32 (hA ++ (c1 ++ (hB ++ (c2 ++ (b3 ++ (c4 ++ b5)))))) (block2HdrOff (hA ++ (c1 ++ (hB ++ (c2 ++ (b3 ++ (c4 ++ b5)))))) + 0x20) = c2.length := by
    rw [E2, show 44 + c1.length + 0x20 = hA.length + (c1.length + 0x20) by omega,
      readU32_append_add, readU32_append_add,
      readU32_append_lt hB _ 0x20 (by omega), sB]
  have E4 : block3Off (hA ++ (c1 ++ (hB ++ (c2 ++ (b3 ++ (c4 ++ b5)))))) = 88 + c1.length + c2.length := by
    rw [block3Off, E3, E2]
    omega
  have P1 : byteSlice (hA ++ (c1 ++ (hB ++ (c2 ++ (b3 ++ (c4 ++ b5)))))) 44 c1.length = c1 := by
    rw [show (44:Nat) = hA.length by omega, byteSlice_at_append]
    exact List.take_left c1 _
  have P2 : byteSlice (hA ++ (c1 ++ (hB ++ (c2 ++ (b3 ++ (c4 ++ b5)))))) (44 + c1.length + 44) c2.length = c2 := by
    rw [show 44 + c1.length + 44 = hA.length + (c1.length + hB.length) by omega,
      byteSlice_append_add, byteSlice_append_add, byteSlice_at_append]
    exact List.take_left c2 _
  have P3 : byteSlice (hA ++ (c1 ++ (hB ++ (c2 ++ (b3 ++ (c4 ++ b5)))))) (88 + c1.length + c2.length) b3.length = b3 := by
    rw [show 88 + c1.length + c2.length =
        hA.length + (c1.length + (hB.length + c2.length)) by omega,
      byteSlice_append_add, byteSlice_append_add, byteSlice_append_add,
      byteSlice_at_append]
    exact List.take_left b3 _
  have P4 : byteSlice (hA ++ (c1 ++ (hB ++ (c2 ++ (b3 ++ (c4 ++ b5)))))) (88 + c1.length + c2.length + b3.length)
      c4.length = c4 := by
    rw [show 88 + c1.length + c2.length + b3.length =
        hA.length + (c1.length + (hB.length + (c2.length + b3.length))) by omega,
      byteSlice_append_add, byteSlice_append_add, byteSlice_append_add,
      byteSlice_append_add, byteSlice_at_append]
    exact List.take_left c4 _
  have P5 : List.drop (88 + c1.length + c2.length + b3.length + c4.length)
      (hA ++ (c1 ++ (hB ++ (c2 ++ (b3 ++ (c4 ++ b5)))))) = b5 := by
    rw [show 88 + c1.length + c2.length + b3.length + c4.length =
        hA.length + (c1.length + (hB.length + (c2.length +
          (b3.length + c4.length)))) by omega,
      drop_append_add, drop_append_add, drop_append_add, drop_append_add,
      drop_append_add]
    exact List.drop_left c4 b5
  have ar1 : 88 + c1.length + c2.length + (b3.length - 13) + 8 + 5 -
      (88 + c1.length + c2.length) = b3.length := by omega
  have ar2 : 88 + c1.length + c2.length + (b3.length - 13) -
      (88 + c1.length + c2.length) = b3.length - 13 := by omega
  simp only [parseSavBlocks]
  rw [if_pos (show 0x24 ≤ (hA ++ (c1 ++ (hB ++ (c2 ++ (b3 ++ (c4 ++ b5)))))).length by rw [hlout]; omega),
    if_pos (show block2HdrOff (hA ++ (c1 ++ (hB ++ (c2 ++ (b3 ++ (c4 ++ b5)))))) + 0x24 ≤ (hA ++ (c1 ++ (hB ++ (c2 ++ (b3 ++ (c4 ++ b5)))))).length by
      rw [E2, hlout]; omega), E4, hscan,
    if_pos (show (4:Nat) ≤ ([r1, r2, r3,
      (88 + c1.length + c2.length + (b3.length - 13), c4.length)]).length by
        simp), getD_three]
  dsimp only
  rw [E1, E3, E2, ar1, ar2, P1, P2, P3, P4, P5]

/-- When both cape flags already hold 0x01, `unlock_capes` returns success
without producing any output bytes (the original file is left untouched). -/
theorem unlockCapes_already (dec comp : List Nat → List Nat)
    (chk : List Nat → Nat) (hdrA : List Nat → Nat → List Nat)
    (hdrB : List Nat → Nat → Nat → List Nat) (data : List Nat) (bl : SavBlocks)
    (hp : parseSavBlocks data = Except.ok bl)
    (hyes : byteAt (dec bl.block4Compressed) CAPE1OFF = 1 ∧
      byteAt (dec bl.block4Compressed) CAPE2OFF = 1) :
    unlockCapes dec comp chk hdrA hdrB data = Except.ok none := by
  simp only [unlockCapes]
  rw [hp]
  simp only [if_pos hyes]

/-- When the cape flags are not both set, `unlock_capes` writes exactly the
assembled output file. -/
theorem unlockCapes_success (dec comp : List Nat → List Nat)
    (chk : List Nat → Nat) (hdrA : List Nat → Nat → List Nat)
    (hdrB : List Nat → Nat → Nat → List Nat) (data : List Nat) (bl : SavBlocks)
    (hp : parseSavBlocks data = Except.ok bl)
    (hnot : ¬ (byteAt (dec bl.block4Compressed) CAPE1OFF = 1 ∧
      byteAt (dec bl.block4Compressed) CAPE2OFF = 1)) :
    unlockCapes dec comp chk hdrA hdrB data =
      Except.ok (some (firstRunOutput dec comp chk hdrA hdrB bl)) := by
  simp only [unlockCapes]
  rw [hp]
  simp only [if_neg hnot]

/-- C7: patching is idempotent.  If both cape flags already hold 0x01, the
patch succeeds without writing output, leaving the original bytes unchanged
(and skipping recompression).  Otherwise the patch writes the assembled
output, and running the same patch on that freshly re-parsed output is a
no-op: the second run reports "already applied" and writes nothing, so the
file stays byte-identical to the first patch's output.  Hypotheses: the
external collaborators honour their contracts (44-byte headers carrying the
compressed length at offset 0x20, decompression inverting compression on the
patched payload), the decompressed Block 4 covers both flag offsets, and the
region scan of the rebuilt container finds its four regions with region 4 at
the patched position and size. -/
theorem c7_patch_idempotent
    (dec comp : List Nat → List Nat) (chk : List Nat → Nat)
    (hdrA : List Nat → Nat → List Nat) (hdrB : List Nat → Nat → Nat → List Nat)
    (data : List Nat) (bl : SavBlocks) (r1 r2 r3 : Nat × Nat)
    (hp : parseSavBlocks data = Except.ok bl)
    (hlen : CAPE2OFF < (dec bl.block4Compressed).length)
    (hrt : dec (newB4c dec comp bl) = patchedB4 dec bl)
    (lA : (hdrA (comp (dec bl.block1Compressed))
      (dec bl.block1Compressed).length).length = 44)
    (sA : readU32 (hdrA (comp (dec bl.block1Compressed))
      (dec bl.block1Compressed).length) 0x20 =
        (comp (dec bl.block1Compressed)).length)
    (lB : (hdrB (comp (dec bl.block2Compressed)) (dec bl.block2Compressed).length
      (remainingAfterBlock2Header (comp (dec bl.block2Compressed)).length
        (newB3 dec comp chk bl).length (newB4c dec comp bl).length
        bl.block5Raw.length)).length = 44)
    (sB : readU32 (hdrB (comp (dec bl.block2Compressed))
      (dec bl.block2Compressed).length
      (remainingAfterBlock2Header (comp (dec bl.block2Compressed)).length
        (newB3 dec comp chk bl).length (newB4c dec comp bl).length
        bl.block5Raw.length)) 0x20 = (comp (dec bl.block2Compressed)).length)
    (hb3 : 13 ≤ (newB3 dec comp chk bl).length)
    (hscan : scanRegions (firstRunOutput dec comp chk hdrA hdrB bl)
        (88 + (comp (dec bl.block1Compressed)).length +
          (comp (dec bl.block2Compressed)).length) =
      [r1, r2, r3,
        (88 + (comp (dec bl.block1Compressed)).length +
          (comp (dec bl.block2Compressed)).length +
          ((newB3 dec comp chk bl).length - 13),
         (newB4c dec comp bl).length)]) :
    (byteAt (dec bl.block4Compressed) CAPE1OFF = 1 ∧
        byteAt (dec bl.block4Compressed) CAPE2OFF = 1 →
      unlockCapes dec comp chk hdrA hdrB data = Except.ok none) ∧
    (¬ (byteAt (dec bl.block4Compressed) CAPE1OFF = 1 ∧
        byteAt (dec bl.block4Compressed) CAPE2OFF = 1) →
      unlockCapes dec comp chk hdrA hdrB data =
        Except.ok (some (firstRunOutput dec comp chk hdrA hdrB bl)) ∧
      unlockCapes dec comp chk hdrA hdrB
          (firstRunOutput dec comp chk hdrA hdrB bl) =
        Except.ok none) := by
  constructor
  · intro hyes
    exact unlockCapes_already dec comp chk hdrA hdrB data bl hp hyes
  · intro hnot
    refine ⟨unlockCapes_success dec comp chk hdrA hdrB data bl hp hnot, ?_⟩
    have hout : firstRunOutput dec comp chk hdrA hdrB bl =
        hdrA (comp (dec bl.block1Compressed)) (dec bl.block1Compressed).length ++
          (comp (dec bl.block1Compressed) ++
            (hdrB (comp (dec bl.block2Compressed))
              (dec bl.block2Compressed).length
              (remainingAfterBlock2Header (comp (dec bl.block2Compressed)).length
                (newB3 dec comp chk bl).length (newB4c dec comp bl).length
                bl.block5Raw.length) ++
              (comp (dec bl.block2Compressed) ++
                (newB3 dec comp chk bl ++
                  (newB4c dec comp bl ++ bl.block5Raw))))) := by
      simp only [firstRunOutput, List.append_assoc]
    rw [hout] at hscan ⊢
    have hp2 := parse_of_assembled
      (hdrA (comp (dec bl.block1Compressed)) (dec bl.block1Compressed).length)
      (comp (dec bl.block1Compressed))
      (hdrB (comp (dec bl.block2Compressed)) (dec bl.block2Compressed).length
        (remainingAfterBlock2Header (comp (dec bl.block2Compressed)).length
          (newB3 dec comp chk bl).length (newB4c dec comp bl).length
          bl.block5Raw.length))
      (comp (dec bl.block2Compressed))
      (newB3 dec comp chk bl) (newB4c dec comp bl) bl.block5Raw
      r1 r2 r3 lA sA lB sB hb3 hscan
    refine unlockCapes_already dec comp chk hdrA hdrB _ _ hp2 ?_
    dsimp only
    rw [hrt]
    constructor
    · rw [patchedB4,
        byteAt_setByte_ne (setByte (dec bl.block4Compressed) CAPE1OFF 1)
          CAPE2OFF 1 CAPE1OFF (by decide),
        byteAt_setByte_self (dec bl.block4Compressed) CAPE1OFF 1
          (by have h12 : CAPE1OFF < CAPE2OFF := by decide
              omega)]
    · rw [patchedB4,
        byteAt_setByte_self (setByte (dec bl.block4Compressed) CAPE1OFF 1)
          CAPE2OFF 1 (by rw [length_setByte]; exact hlen)]


/-- Witness for C7: a concrete run with toy collaborators on `exSav`.  The
first run patches the two flags (both initially 0) and assembles an output;
running the patch again on that output reports "already applied" and writes
nothing, so the output stays byte-identical. -/
theorem c7_patch_idempotent_witness :
    unlockCapes myDec myComp myChk myHdrA myHdrB
        (firstRunOutput myDec myComp myChk myHdrA myHdrB exBlocks) =
      Except.ok none := by
  have hdec4 : myDec exBlocks.block4Compressed = big0 := rfl
  have hC1 : myComp (myDec exBlocks.block1Compressed) =
      [0xB1, 0xB1, 0xB1, 0xB1] := rfl
  have hC2 : myComp (myDec exBlocks.block2Compressed) =
      [0xB2, 0xB2, 0xB2, 0xB2] := rfl
  have s3 : setByte big0 20704 1 =
      List.replicate 20704 0 ++ 1 :: List.replicate 18 0 :=
    (setByte_replicate 20723 20704 0 1 (by norm_num)).trans
      (congrArg (fun l => List.replicate 20704 0 ++ 1 :: l)
        (congrArg (fun n => List.replicate n (0:Nat)) (by norm_num)))
  have s4 : setByte (setByte big0 20704 1) 20722 1 =
      setByte (List.replicate 20704 0 ++ 1 :: List.replicate 18 0) 20722 1 :=
    congrArg (fun l => setByte l 20722 1) s3
  have s5 : setByte (List.replicate 20704 0 ++ 1 :: List.replicate 18 0) 20722 1 =
      setByte (List.replicate 20704 0 ++ 1 :: List.replicate 18 0)
        ((List.replicate 20704 (0:Nat)).length + 18) 1 :=
    congrArg
      (fun n => setByte (List.replicate 20704 0 ++ 1 :: List.replicate 18 0) n 1)
      (by rw [List.length_replicate])
  have s6 : setByte (List.replicate 20704 0 ++ 1 :: List.replicate 18 0)
        ((List.replicate 20704 (0:Nat)).length + 18) 1 =
      List.replicate 20704 0 ++ setByte (1 :: List.replicate 18 0) 18 1 :=
    setByte_append_add (List.replicate 20704 0) (1 :: List.replicate 18 0) 18 1
  have s7 : List.replicate 20704 0 ++ setByte (1 :: List.replicate 18 0) 18 1 =
      List.replicate 20704 (0:Nat) ++ (1 :: (List.replicate 17 0 ++ [1])) :=
    congrArg (fun l => List.replicate 20704 0 ++ l) (by decide)
  have hpb : patchedB4 myDec exBlocks = bigP :=
    (rfl : patchedB4 myDec exBlocks =
        setByte (setByte big0 20704 1) 20722 1).trans
      (s4.trans (s5.trans (s6.trans s7)))
  have hC4 : newB4c myDec myComp exBlocks = [7] := by
    rw [newB4c, hpb, myComp, if_pos rfl]
  have hrt : myDec (newB4c myDec myComp exBlocks) = patchedB4 myDec exBlocks := by
    rw [hC4, hpb]
    rfl
  have hlen : CAPE2OFF < (myDec exBlocks.block4Compressed).length := by
    rw [hdec4, big0, List.length_replicate, CAPE2OFF]
    omega
  have hb3 : 13 ≤ (newB3 myDec myComp myChk exBlocks).length := by
    rw [newB3, hC4]
    decide
  have hnot : ¬ (byteAt (myDec exBlocks.block4Compressed) CAPE1OFF = 1 ∧
      byteAt (myDec exBlocks.block4Compressed) CAPE2OFF = 1) := by
    rw [hdec4, big0, byteAt_replicate, byteAt_replicate, ite_self, ite_self]
    simp
  have lA : (myHdrA (myComp (myDec exBlocks.block1Compressed))
      (myDec exBlocks.block1Compressed).length).length = 44 := by decide
  have sA : readU32 (myHdrA (myComp (myDec exBlocks.block1Compressed))
      (myDec exBlocks.block1Compressed).length) 0x20 =
      (myComp (myDec exBlocks.block1Compressed)).length := by decide
  have lB : (myHdrB (myComp (myDec exBlocks.block2Compressed))
      (myDec exBlocks.block2Compressed).length
      (remainingAfterBlock2Header (myComp (myDec exBlocks.block2Compressed)).length
        (newB3 myDec myComp myChk exBlocks).length
        (newB4c myDec myComp exBlocks).length
        exBlocks.block5Raw.length)).length = 44 := by
    rw [newB3, hC4]
    decide
  have sB : readU32 (myHdrB (myComp (myDec exBlocks.block2Compressed))
      (myDec exBlocks.block2Compressed).length
      (remainingAfterBlock2Header (myComp (myDec exBlocks.block2Compressed)).length
        (newB3 myDec myComp myChk exBlocks).length
        (newB4c myDec myComp exBlocks).length
        exBlocks.block5Raw.length)) 0x20 =
      (myComp (myDec exBlocks.block2Compressed)).length := by
    rw [newB3, hC4]
    decide
  have hscan : scanRegions
      (firstRunOutput myDec myComp myChk myHdrA myHdrB exBlocks)
      (88 + (myComp (myDec exBlocks.block1Compressed)).length +
        (myComp (myDec exBlocks.block2Compressed)).length) =
      [(96, 1), (110, 1), (124, 1),
        (88 + (myComp (myDec exBlocks.block1Compressed)).length +
          (myComp (myDec exBlocks.block2Compressed)).length +
          ((newB3 myDec myComp myChk exBlocks).length - 13),
         (newB4c myDec myComp exBlocks).length)] := by
    simp only [firstRunOutput, newB3]
    rw [hC1, hC2, hC4]
    decide
  have key := c7_patch_idempotent myDec myComp myChk myHdrA myHdrB exSav exBlocks
    (96, 1) (110, 1) (124, 1) (by rfl) hlen hrt lA sA lB sB hb3 hscan
  exact (key.2 hnot).2
